import Mathlib

set_option maxRecDepth 10000

/-
Verification of the entity / transform core of the repository.

Sections, in order:
  1. Transform execution (transforms/base.py)
  2. Python value model and property validators (entities/base.py)
  3. Datetime parsing and formatting (entities/event.py, datetime.strptime
     and strftime as used there)
  4. Entity construction, validation, serialization (entities/base.py,
     entities/event.py, entities/person.py)
  5. Graph store (ui/managers/graph_manager.py)
  6. Merge resolver similarity scoring (ui/components/ai_dock.py)
followed by the theorems for the claims.
-/

/- ## Section 1: transforms/base.py -/

/-- An entity as seen by the transform layer: input and output validation in
transforms/base.py consult only the Python class name of the entity
(entity.__class__.__name__). -/
structure TEntity where
  className : String
deriving DecidableEq, Repr

/-- Python exception values that can cross the Transform.execute boundary:
TransformValidationError, TransformExecutionError (carrying its __cause__),
or any other exception, identified by its message. -/
inductive PyExc where
  | transformValidation (msg : String)
  | transformExecution (msg : String) (cause : PyExc)
  | otherExc (msg : String)
deriving DecidableEq, Repr

/-- str(e) on an exception value: its message. -/
def PyExc.message : PyExc → String
  | .transformValidation m => m
  | .transformExecution m _ => m
  | .otherExc m => m

/-- A transform: class-level name, declared input and output entity class
names, and the run coroutine, modelled as a function that either returns a
list of produced entities or raises an exception. -/
structure Transform where
  name : String
  inputTypes : List String
  outputTypes : List String
  run : TEntity → Except PyExc (List TEntity)

/-- Transform._validate_input: the class name of the input entity must be
listed in input_types. -/
def Transform.validateInput (t : Transform) (e : TEntity) : Bool :=
  t.inputTypes.contains e.className

/-- Transform._validate_output: every produced entity must have its class
name listed in output_types.  The isinstance(entities, list) guard of the
Python code is vacuous here because run returns a list by type. -/
def Transform.validateOutput (t : Transform) (es : List TEntity) : Bool :=
  es.all (fun e => t.outputTypes.contains e.className)

/-- The body of the try block of Transform.execute: validate the input
(raising TransformValidationError on failure, before run is ever consulted),
invoke run, validate the output (raising TransformValidationError on
failure). -/
def Transform.tryBody (t : Transform) (e : TEntity) : Except PyExc (List TEntity) :=
  if t.validateInput e then
    match t.run e with
    | .error exc => .error exc
    | .ok result =>
      if t.validateOutput result then
        .ok result
      else
        .error (.transformValidation ("Transform " ++ t.name ++ " returned invalid output types"))
  else
    .error (.transformValidation ("Entity type " ++ e.className ++ " not supported by transform " ++ t.name))

/-- Transform.execute: the whole body runs inside one try block whose
"except Exception as e" clause catches every exception - including the
TransformValidationError raised by the body itself - and re-raises it as
TransformExecutionError with message "Transform {name} failed: {str(e)}",
chained from the original exception. -/
def Transform.execute (t : Transform) (e : TEntity) : Except PyExc (List TEntity) :=
  match t.tryBody e with
  | .ok r => .ok r
  | .error exc =>
    .error (.transformExecution ("Transform " ++ t.name ++ " failed: " ++ exc.message) exc)

/-- A stub transform accepting only Email entities, whose run succeeds with
an empty result. -/
def emailOnlyStub : Transform :=
  { name := "Stub"
    inputTypes := ["Email"]
    outputTypes := ["Person"]
    run := fun _ => .ok [] }

/-- A stub transform whose run raises a generic internal exception. -/
def failStub : Transform :=
  { name := "FailStub"
    inputTypes := ["Email"]
    outputTypes := ["Person"]
    run := fun _ => .error (.otherExc "boom") }

/-- A stub transform that misbehaves by returning an entity of a class not
listed in its output_types. -/
def badOutputStub : Transform :=
  { name := "BadOut"
    inputTypes := ["Email"]
    outputTypes := ["Person"]
    run := fun _ => .ok [⟨"Website"⟩] }

/- ## Section 2: Python values, datetimes, and property validators
      (entities/base.py, entities/event.py) -/

/-- A Python datetime, by its calendar fields. -/
structure PyDateTime where
  year : Nat
  month : Nat
  day : Nat
  hour : Nat
  minute : Nat
  second : Nat
deriving DecidableEq, Repr

def isLeapYear (y : Nat) : Bool :=
  (y % 4 == 0 && y % 100 != 0) || y % 400 == 0

def daysInMonth (y m : Nat) : Nat :=
  if m == 2 then (if isLeapYear y then 29 else 28)
  else if m == 4 || m == 6 || m == 9 || m == 11 then 30
  else 31

/-- The range checks enforced by the Python datetime constructor (and hence
by datetime.strptime). -/
def PyDateTime.valid (d : PyDateTime) : Bool :=
  decide (1 ≤ d.year ∧ d.year ≤ 9999 ∧ 1 ≤ d.month ∧ d.month ≤ 12 ∧ 1 ≤ d.day ∧
    d.day ≤ daysInMonth d.year d.month ∧ d.hour ≤ 23 ∧ d.minute ≤ 59 ∧ d.second ≤ 59)

def digitChar (d : Nat) : Char := Char.ofNat (48 + d)

def digitVal (c : Char) : Nat := c.toNat - 48

def isDigitChar (c : Char) : Bool := 48 ≤ c.toNat && c.toNat ≤ 57

/-- Zero-padded two-digit rendering, as produced by strftime %m %d %H %M %S. -/
def pad2 (n : Nat) : List Char := [digitChar (n / 10 % 10), digitChar (n % 10)]

/-- Zero-padded four-digit rendering, as produced by strftime %Y. -/
def pad4 (n : Nat) : List Char :=
  [digitChar (n / 1000 % 10), digitChar (n / 100 % 10), digitChar (n / 10 % 10),
    digitChar (n % 10)]

/-- strftime("%Y-%m-%d %H:%M"). -/
def formatYMDHM (d : PyDateTime) : String :=
  String.mk (pad4 d.year ++ '-' :: pad2 d.month ++ '-' :: pad2 d.day ++
    ' ' :: pad2 d.hour ++ ':' :: pad2 d.minute)

/-- strftime("%Y-%m-%d %H:%M:%S"), which is also str(datetime) up to the
microsecond part (always absent here). -/
def formatYMDHMS (d : PyDateTime) : String :=
  String.mk (pad4 d.year ++ '-' :: pad2 d.month ++ '-' :: pad2 d.day ++
    ' ' :: pad2 d.hour ++ ':' :: pad2 d.minute ++ ':' :: pad2 d.second)

/-- Greedily consume up to a given number of further digits. -/
def takeDigits : Nat → List Char → Nat → Nat × List Char
  | _, [], acc => (acc, [])
  | 0, cs, acc => (acc, cs)
  | m + 1, c :: cs, acc =>
    if isDigitChar c then takeDigits m cs (acc * 10 + digitVal c) else (acc, c :: cs)

/-- A one-or-two-digit numeric strptime field taken greedily.  CPython's
directives %m, %H, %M, %S are the ordered regex alternatives
"1[0-2]|0[1-9]|[1-9]", "2[0-3]|[0-1]\d|\d", "[0-5]\d|\d" and
"6[0-1]|[0-5]\d|\d": every alternative starts with a digit, a two-digit
alternative matches exactly when both characters are digits and the value is
in range, and whenever a two-digit alternative applies the one-digit
fallback leaves a digit where the following separator (a non-digit) or the
end of input is required, so backtracking never changes the outcome; the
greedy two-digit read followed by the datetime constructor's range check
(PyDateTime.valid, which also covers the 60/61 seconds the %S regex admits
but the constructor rejects) accepts exactly the same strings. -/
def parseNumField (maxDigits : Nat) (cs : List Char) : Option (Nat × List Char) :=
  match cs with
  | c :: rest =>
    if isDigitChar c then some (takeDigits (maxDigits - 1) rest (digitVal c))
    else Option.none
  | [] => Option.none

/-- strptime %Y: exactly four digits ("\d\d\d\d" in CPython's TimeRE). -/
def parseNum4 (cs : List Char) : Option (Nat × List Char) :=
  match cs with
  | c1 :: c2 :: c3 :: c4 :: rest =>
    if isDigitChar c1 && isDigitChar c2 && isDigitChar c3 && isDigitChar c4 then
      some (((digitVal c1 * 10 + digitVal c2) * 10 + digitVal c3) * 10 + digitVal c4, rest)
    else Option.none
  | _ => Option.none

/-- strptime %d: the regex "3[0-1]|[1-2]\d|0[1-9]|[1-9]| [1-9]" — one or two
digits, or a space-padded single non-zero digit.  On a digit-headed input
this coincides with the greedy one-or-two-digit field followed by the
constructor's day range check (the digit alternatives cover exactly the
two-digit strings 01..31 and the single digits 1..9, and values outside
1..31 never pass PyDateTime.valid); the space alternative is disjoint from
the digit ones. -/
def parseDayField (cs : List Char) : Option (Nat × List Char) :=
  match cs with
  | c :: rest =>
    if c == ' ' then
      match rest with
      | c2 :: rest2 =>
        if isDigitChar c2 && !(c2 == '0') then some (digitVal c2, rest2) else Option.none
      | [] => Option.none
    else parseNumField 2 (c :: rest)
  | [] => Option.none

/-- A literal character of a strptime format string. -/
def parseLit (c : Char) (cs : List Char) : Option (List Char) :=
  match cs with
  | d :: rest => if d == c then some rest else Option.none
  | [] => Option.none

/-- Whitespace in a strptime format matches a run of one or more whitespace
characters. -/
def parseGap (cs : List Char) : Option (List Char) :=
  match cs with
  | c :: rest => if c.isWhitespace then some (rest.dropWhile Char.isWhitespace) else Option.none
  | [] => Option.none

/-- datetime.strptime(s, "%Y-%m-%d %H:%M"): the year takes exactly four
digits, month, hour and minute one or two, the day one or two digits or a
space-padded single digit, the format space matches any whitespace run, the
whole input must be consumed, and the fields must form a valid datetime
(seconds are 0). -/
def parseYMDHMList (cs : List Char) : Option PyDateTime :=
  match parseNum4 cs with
  | Option.none => Option.none
  | some (y, cs) =>
  match parseLit '-' cs with
  | Option.none => Option.none
  | some cs =>
  match parseNumField 2 cs with
  | Option.none => Option.none
  | some (mo, cs) =>
  match parseLit '-' cs with
  | Option.none => Option.none
  | some cs =>
  match parseDayField cs with
  | Option.none => Option.none
  | some (d, cs) =>
  match parseGap cs with
  | Option.none => Option.none
  | some cs =>
  match parseNumField 2 cs with
  | Option.none => Option.none
  | some (h, cs) =>
  match parseLit ':' cs with
  | Option.none => Option.none
  | some cs =>
  match parseNumField 2 cs with
  | Option.none => Option.none
  | some (mi, cs) =>
  if cs.isEmpty then
    let dt : PyDateTime := ⟨y, mo, d, h, mi, 0⟩
    if dt.valid then some dt else Option.none
  else Option.none

def parseYMDHM (s : String) : Option PyDateTime := parseYMDHMList s.toList

/-- datetime.strptime(s, "%Y-%m-%d %H:%M:%S"), with the same field shapes. -/
def parseYMDHMSList (cs : List Char) : Option PyDateTime :=
  match parseNum4 cs with
  | Option.none => Option.none
  | some (y, cs) =>
  match parseLit '-' cs with
  | Option.none => Option.none
  | some cs =>
  match parseNumField 2 cs with
  | Option.none => Option.none
  | some (mo, cs) =>
  match parseLit '-' cs with
  | Option.none => Option.none
  | some cs =>
  match parseDayField cs with
  | Option.none => Option.none
  | some (d, cs) =>
  match parseGap cs with
  | Option.none => Option.none
  | some cs =>
  match parseNumField 2 cs with
  | Option.none => Option.none
  | some (h, cs) =>
  match parseLit ':' cs with
  | Option.none => Option.none
  | some cs =>
  match parseNumField 2 cs with
  | Option.none => Option.none
  | some (mi, cs) =>
  match parseLit ':' cs with
  | Option.none => Option.none
  | some cs =>
  match parseNumField 2 cs with
  | Option.none => Option.none
  | some (sec, cs) =>
  if cs.isEmpty then
    let dt : PyDateTime := ⟨y, mo, d, h, mi, sec⟩
    if dt.valid then some dt else Option.none
  else Option.none

def parseYMDHMS (s : String) : Option PyDateTime := parseYMDHMSList s.toList

/-- A Python value as it can appear in an entity property map.  Floats are
modelled by rationals: every comparison made by the code under study is far
from any representation boundary, so exact arithmetic and binary floating
point agree on all of them. -/
inductive PyVal where
  | str (s : String)
  | int (n : Int)
  | float (q : ℚ)
  | bool (b : Bool)
  | pynone
  | datetime (d : PyDateTime)
deriving DecidableEq, Repr

/-- Well-formedness of a value: a datetime payload satisfies the Python
datetime constructor invariants (Python cannot build an out-of-range
datetime object). -/
def PyVal.WF : PyVal → Prop
  | .datetime d => d.valid = true
  | _ => True

/-- The Python primitive types that occur as validator property_type. -/
inductive PyType where
  | strT
  | intT
  | floatT
  | boolT
deriving DecidableEq, Repr

def PyType.pyName : PyType → String
  | .strT => "str"
  | .intT => "int"
  | .floatT => "float"
  | .boolT => "bool"

/-- isinstance, with bool a subclass of int as in Python. -/
def pyIsInstance (v : PyVal) : PyType → Bool
  | .strT => match v with | .str _ => true | _ => false
  | .intT => match v with | .int _ => true | .bool _ => true | _ => false
  | .floatT => match v with | .float _ => true | _ => false
  | .boolT => match v with | .bool _ => true | _ => false

/-- str(v).  The exact Python rendering of floats (shortest round-trip
repr) is not reproduced; no claim depends on it, only on the facts that the
result is a string and that it is not accepted by strptime, which hold for
this rendering as well. -/
def pyStr : PyVal → String
  | .str s => s
  | .int n => toString n
  | .float q => toString q
  | .bool b => if b then "True" else "False"
  | .pynone => "None"
  | .datetime d => formatYMDHMS d

/-- Python truthiness of the modelled values. -/
def pyTruthy : PyVal → Bool
  | .str s => !(s == "")
  | .int n => !(n == 0)
  | .float q => !(q == 0)
  | .bool b => b
  | .pynone => false
  | .datetime _ => true

/-- int(s) on a string: optional surrounding whitespace, optional sign, one
or more digits (the underscore digit grouping of Python literals is not
modelled). -/
def parseIntString (s : String) : Option Int :=
  let cs := s.toList.dropWhile Char.isWhitespace
  let cs := (cs.reverse.dropWhile Char.isWhitespace).reverse
  let signAndDigits : Bool × List Char :=
    match cs with
    | '-' :: rest => (true, rest)
    | '+' :: rest => (false, rest)
    | _ => (false, cs)
  let neg := signAndDigits.1
  let ds := signAndDigits.2
  if !ds.isEmpty && ds.all isDigitChar then
    let n : Nat := ds.foldl (fun acc c => acc * 10 + digitVal c) 0
    some (if neg then -(n : Int) else (n : Int))
  else Option.none

/-- float(s) on a string: optional surrounding whitespace, optional sign,
digits with an optional fractional part, at least one digit in total
(exponent, inf and nan forms are not modelled; no claim exercises them). -/
def parseFloatString (s : String) : Option ℚ :=
  let cs := s.toList.dropWhile Char.isWhitespace
  let cs := (cs.reverse.dropWhile Char.isWhitespace).reverse
  let signAndBody : Bool × List Char :=
    match cs with
    | '-' :: rest => (true, rest)
    | '+' :: rest => (false, rest)
    | _ => (false, cs)
  let neg := signAndBody.1
  let body := signAndBody.2
  let ip := body.takeWhile isDigitChar
  let rest := body.dropWhile isDigitChar
  let fpOk : Option (List Char) :=
    match rest with
    | [] => some []
    | '.' :: fp => if fp.all isDigitChar then some fp else Option.none
    | _ => Option.none
  match fpOk with
  | Option.none => Option.none
  | some fp =>
    if ip.isEmpty && fp.isEmpty then Option.none
    else
      let iv : Nat := ip.foldl (fun acc c => acc * 10 + digitVal c) 0
      let fv : Nat := fp.foldl (fun acc c => acc * 10 + digitVal c) 0
      let q : ℚ := (iv : ℚ) + (fv : ℚ) / ((10 : ℚ) ^ fp.length)
      some (if neg then -q else q)

/-- int(q) on a float: truncation toward zero. -/
def ratTrunc (q : ℚ) : Int :=
  if q < 0 then -((-q).floor) else q.floor

/-- Error raised by a validator or by Entity.validate_properties:
PropertyValidationError(property_name, value, expected) or a plain
ValueError identified by its message. -/
inductive ValErr where
  | propertyValidation (propertyName : String) (value : PyVal) (expected : String)
  | valueErr (msg : String)
deriving DecidableEq, Repr

/-- The value coercion self.property_type(value) attempted by
PropertyValidator.validate; failure stands for the ValueError or TypeError
it raises. -/
def pyCoerce (t : PyType) (v : PyVal) : Option PyVal :=
  match t with
  | .strT => some (.str (pyStr v))
  | .intT =>
    match v with
    | .str s => (parseIntString s).map PyVal.int
    | .float q => some (.int (ratTrunc q))
    | .int n => some (.int n)
    | .bool b => some (.int (if b then 1 else 0))
    | _ => Option.none
  | .floatT =>
    match v with
    | .str s => (parseFloatString s).map PyVal.float
    | .float q => some (.float q)
    | .int n => some (.float (n : ℚ))
    | .bool b => some (.float (if b then 1 else 0))
    | _ => Option.none
  | .boolT => some (.bool (pyTruthy v))

/-- PropertyValidator.validate: keep the value if it is an instance of the
property type, otherwise coerce it; coercion failure raises
PropertyValidationError("unknown", value, property_type). -/
def genericValidate (t : PyType) (v : PyVal) : Except ValErr PyVal :=
  if pyIsInstance v t then .ok v
  else
    match pyCoerce t v with
    | some w => .ok w
    | Option.none => .error (.propertyValidation "unknown" v t.pyName)

/-- The string underlying the result of the generic str path: the value
itself when it is a string, str(value) otherwise.  genericValidate .strT
never fails and returns exactly this string. -/
def strOf (v : PyVal) : String :=
  match v with
  | .str s => s
  | w => pyStr w

/-- The truthiness test "if self.max_length and ..." skips the check when
max_length is None or 0. -/
def maxLenViolated (maxLength : Option Nat) (len : Nat) : Bool :=
  match maxLength with
  | some m => !(m == 0) && decide (m < len)
  | _ => false

/-- A compiled regex is abstracted as its source text plus the Boolean
outcome of pattern.match; only determinism of the matcher is used. -/
def patternViolated (pattern : Option (String × (String → Bool))) (s : String) : Bool :=
  match pattern with
  | some p => !(p.2 s)
  | _ => false

def patternText (pattern : Option (String × (String → Bool))) : String :=
  match pattern with
  | some p => p.1
  | _ => ""

/-- StringValidator.validate: generic str step (which never fails), then
min_length, max_length and pattern checks in that order. -/
def stringValidate (minLength : Nat) (maxLength : Option Nat)
    (pattern : Option (String × (String → Bool))) (v : PyVal) : Except ValErr PyVal :=
  let s := strOf v
  if s.length < minLength then
    .error (.propertyValidation "unknown" (.str s)
      ("String length must be at least " ++ toString minLength))
  else if maxLenViolated maxLength s.length then
    .error (.propertyValidation "unknown" (.str s)
      ("String length must be at most " ++ toString (maxLength.getD 0)))
  else if patternViolated pattern s then
    .error (.propertyValidation "unknown" (.str s)
      ("String must match pattern " ++ patternText pattern))
  else
    .ok (.str s)

/-- The numeric value the Integer validator compares against its bounds:
after the generic step the value is an int or a bool (a bool is an instance
of int in Python) and compares by its numeric value. -/
def pyIntValue : PyVal → Int
  | .int n => n
  | .bool b => if b then 1 else 0
  | _ => 0

def intMinViolated (minValue : Option Int) (n : Int) : Bool :=
  match minValue with
  | some m => decide (n < m)
  | _ => false

def intMaxViolated (maxValue : Option Int) (n : Int) : Bool :=
  match maxValue with
  | some m => decide (m < n)
  | _ => false

/-- IntegerValidator.validate. -/
def integerValidate (minValue maxValue : Option Int) (v : PyVal) : Except ValErr PyVal :=
  match genericValidate .intT v with
  | .error e => .error e
  | .ok w =>
    if intMinViolated minValue (pyIntValue w) then
      .error (.propertyValidation "unknown" w
        ("Value must be at least " ++ toString (minValue.getD 0)))
    else if intMaxViolated maxValue (pyIntValue w) then
      .error (.propertyValidation "unknown" w
        ("Value must be at most " ++ toString (maxValue.getD 0)))
    else
      .ok w

def ratMinViolated (minValue : Option ℚ) (q : ℚ) : Bool :=
  match minValue with
  | some m => decide (q < m)
  | _ => false

def ratMaxViolated (maxValue : Option ℚ) (q : ℚ) : Bool :=
  match maxValue with
  | some m => decide (m < q)
  | _ => false

def pyFloatValue : PyVal → ℚ
  | .float q => q
  | _ => 0

/-- FloatValidator.validate: a string input is parsed by float() directly
(to preserve precision); every other input goes through the generic float
path; then the bound checks.  The value is never rounded (the precision
attribute of the validator is stored but unused during validation). -/
def floatValidate (minValue maxValue : Option ℚ) (v : PyVal) : Except ValErr PyVal :=
  let coerced : Except ValErr PyVal :=
    match v with
    | .str s =>
      match parseFloatString s with
      | some q => .ok (.float q)
      | Option.none => .error (.propertyValidation "unknown" v "float")
    | _ => genericValidate .floatT v
  match coerced with
  | .error e => .error e
  | .ok w =>
    if ratMinViolated minValue (pyFloatValue w) then
      .error (.propertyValidation "unknown" w
        ("Value must be at least " ++ toString (minValue.getD 0)))
    else if ratMaxViolated maxValue (pyFloatValue w) then
      .error (.propertyValidation "unknown" w
        ("Value must be at most " ++ toString (maxValue.getD 0)))
    else
      .ok w

/-- ListValidator.validate: empty-ish values are accepted as "" when
allow_empty is set; otherwise the generic str step (which never fails) and
a membership check against choices. -/
def listValidate (choices : List String) (allowEmpty : Bool) (v : PyVal) : Except ValErr PyVal :=
  if !pyTruthy v && allowEmpty then .ok (.str "")
  else
    let s := strOf v
    if choices.contains s then .ok (.str s)
    else
      .error (.propertyValidation "unknown" (.str s)
        ("Value must be one of: " ++ String.intercalate ", " choices))

/-- DateTimeValidator.validate from entities/event.py: a datetime value is
formatted directly; any other value is rendered to a string if needed, then
parsed as "%Y-%m-%d %H:%M" and, failing that, as "%Y-%m-%d %H:%M:%S"; on
success the canonical "%Y-%m-%d %H:%M" string is returned (seconds
dropped); otherwise a plain ValueError - not a PropertyValidationError - is
raised. -/
def dateTimeValidateStr (s : String) : Except ValErr PyVal :=
  match parseYMDHM s with
  | some d => .ok (.str (formatYMDHM d))
  | Option.none =>
    match parseYMDHMS s with
    | some d => .ok (.str (formatYMDHM d))
    | Option.none =>
      .error (.valueErr ("Invalid datetime format. Expected YYYY-MM-DD HH:mm, got " ++ s))

def dateTimeValidate (v : PyVal) : Except ValErr PyVal :=
  match v with
  | .datetime d => .ok (.str (formatYMDHM d))
  | _ => dateTimeValidateStr (strOf v)

/-- The property validators of entities/base.py (EmailValidator is a
StringValidator with the email pattern) plus the DateTimeValidator of
entities/event.py. -/
inductive Validator where
  | generic (t : PyType)
  | stringV (minLength : Nat) (maxLength : Option Nat)
      (pattern : Option (String × (String → Bool)))
  | integerV (minValue maxValue : Option Int)
  | floatV (minValue maxValue : Option ℚ) (precision : Option Nat)
  | listV (choices : List String) (allowEmpty : Bool)
  | datetimeV

/-- Validator dispatch. -/
def Validator.validate : Validator → PyVal → Except ValErr PyVal
  | .generic t, v => genericValidate t v
  | .stringV a b c, v => stringValidate a b c v
  | .integerV a b, v => integerValidate a b v
  | .floatV a b _, v => floatValidate a b v
  | .listV c e, v => listValidate c e v
  | .datetimeV, v => dateTimeValidate v

/- ## Section 3: the entity model (entities/base.py, entities/event.py,
      entities/person.py).  Python dicts are modelled as insertion-ordered
      association lists with unique keys. -/

def dictGet {α : Type} (l : List (String × α)) (k : String) : Option α :=
  (l.find? (fun p => p.1 == k)).map Prod.snd

def dictHas {α : Type} (l : List (String × α)) (k : String) : Bool :=
  l.any (fun p => p.1 == k)

/-- d[k] = v on a Python dict: replaces the entry in place when the key
exists (keys are unique in a dict, so replacing the first match is exact),
appends otherwise. -/
def dictSet {α : Type} : List (String × α) → String → α → List (String × α)
  | [], k, v => [(k, v)]
  | p :: t, k, v => if p.1 == k then (k, v) :: t else p :: dictSet t k v

/-- d.update(e) on a Python dict. -/
def dictUpdate {α : Type} (l e : List (String × α)) : List (String × α) :=
  e.foldl (fun acc p => dictSet acc p.1 p.2) l

/-- One step of Entity.validate_properties: the unknown-key check, then the
validator lookup with the generic validator of the declared type as the
default.  (The quotes of the Python message are written as \x27.) -/
def validateOne (clsName : String) (types : List (String × PyType))
    (validators : List (String × Validator)) (name : String) (value : PyVal) :
    Except ValErr PyVal :=
  if dictHas types name then
    let validator := (dictGet validators name).getD (.generic ((dictGet types name).getD .strT))
    match validator.validate value with
    | .ok w => .ok w
    | .error (.propertyValidation _ v2 exp) => .error (.propertyValidation name v2 exp)
    | .error e => .error e
  else
    .error (.propertyValidation name value
      ("Unknown property \x27" ++ name ++ "\x27 for " ++ clsName))

/-- Entity.validate_properties: iterate the properties in order, fail on the
first unknown key or validator failure - stamping the real property name
into a PropertyValidationError (the already-built message keeps its
placeholder, only the property_name attribute is updated, which is what the
claims consult), while any other exception (the ValueError raised by
DateTimeValidator) propagates untouched - and store each coerced value
back. -/
def validatePropsGo (clsName : String) (types : List (String × PyType))
    (validators : List (String × Validator)) :
    List (String × PyVal) → List (String × PyVal) → Except ValErr (List (String × PyVal))
  | acc, [] => .ok acc
  | acc, (name, value) :: rest =>
    match validateOne clsName types validators name value with
    | .ok w => validatePropsGo clsName types validators (dictSet acc name w) rest
    | .error e => .error e

def validateProps (clsName : String) (types : List (String × PyType))
    (validators : List (String × Validator)) (props : List (String × PyVal)) :
    Except ValErr (List (String × PyVal)) :=
  validatePropsGo clsName types validators props props

/-- The instance state touched by init_properties: the property type table,
the validator table, and the property map itself (Event inserts a default
into it). -/
structure EntityInitState where
  propertyTypes : List (String × PyType)
  propertyValidators : List (String × Validator)
  properties : List (String × PyVal)

/-- Entity.create_validator. -/
def createValidator : PyType → Validator
  | .strT => .stringV 0 Option.none Option.none
  | .intT => .integerV Option.none Option.none
  | .floatT => .floatV Option.none Option.none Option.none
  | t => .generic t

/-- Entity.setup_properties: update property_types wholesale; add a default
validator only for names that do not already carry one. -/
def setupProperties (st : EntityInitState) (props : List (String × PyType)) :
    EntityInitState :=
  { st with
    propertyTypes := dictUpdate st.propertyTypes props
    propertyValidators :=
      dictUpdate st.propertyValidators
        ((props.filter (fun p => !(dictHas st.propertyValidators p.1))).map
          (fun p => (p.1, createValidator p.2))) }

/-- A concrete entity class: its name ClassVar (equal to the Python class
__name__ for every entity class of the repository), its color ClassVar, its
init_properties hook and its update_label rule (each update_label of the
modelled classes reads only the property map). -/
structure EntityClass where
  name : String
  color : String
  initProperties : EntityInitState → EntityInitState
  updateLabel : List (String × PyVal) → String

/-- The dictionary shape produced by EntityData.to_dict and consumed by
EntityData.from_dict. -/
structure EntityDict where
  id : String
  type : String
  label : String
  properties : List (String × PyVal)
  color : Option String
deriving DecidableEq, Repr

/-- An entity instance: the label dataclass field, the property map, the
instance tables built by __post_init__, and the EntityData record. -/
structure EntityRec where
  label : String
  properties : List (String × PyVal)
  propertyTypes : List (String × PyType)
  propertyValidators : List (String × Validator)
  data : EntityDict

def standardTypes : List (String × PyType) :=
  [("notes", .strT), ("source", .strT), ("image", .strT)]

def standardValidators : List (String × Validator) :=
  [("notes", .stringV 0 Option.none Option.none),
   ("source", .stringV 0 Option.none Option.none),
   ("image", .stringV 0 Option.none Option.none)]

/-- Entity construction (dataclass init plus __post_init__): start from
empty tables, run the subclass init_properties hook, merge the three
standard properties with dict.update - which overwrites any validator the
subclass registered for notes, source or image - then validate the
properties and derive the label and the EntityData record.  freshId stands
for the uuid4 drawn by update_data on first construction; the
auto-generated property getters have no effect on the modelled state. -/
def mkEntity (cls : EntityClass) (freshId : String) (_label : String)
    (props : List (String × PyVal)) : Except ValErr EntityRec :=
  let st0 : EntityInitState := ⟨[], [], props⟩
  let st1 := cls.initProperties st0
  let types := dictUpdate st1.propertyTypes standardTypes
  let validators := dictUpdate st1.propertyValidators standardValidators
  match validateProps cls.name types validators st1.properties with
  | .error e => .error e
  | .ok props2 =>
    let label2 := cls.updateLabel props2
    .ok { label := label2
          properties := props2
          propertyTypes := types
          propertyValidators := validators
          data := { id := freshId, type := cls.name, label := label2,
                    properties := props2, color := some cls.color } }

/-- Entity.to_dict: the EntityData record, as a dictionary. -/
def entityToDict (e : EntityRec) : EntityDict := e.data

/-- Entity.from_dict: resolve the concrete class through ENTITY_TYPES by the
type discriminator, construct it with the serialized label and the default
empty property map, then assign the serialized properties and data
wholesale.  The label attribute keeps whatever update_label derived during
construction from the near-empty property map; the fresh id drawn during
construction is discarded in favour of the serialized one. -/
def entityFromDict (registry : List (String × EntityClass)) (freshId : String)
    (d : EntityDict) : Except ValErr EntityRec :=
  match dictGet registry d.type with
  | Option.none => .error (.valueErr ("Unknown entity type: " ++ d.type))
  | some cls =>
    match mkEntity cls freshId d.label [] with
    | .error e => .error e
    | .ok ent => .ok { ent with properties := d.properties, data := d }

/-- Event.init_properties: the five declared properties with default
validators, the DateTimeValidator overrides for the two date fields, and
the default False inserted for add_to_timeline when absent. -/
def eventInitProperties (st : EntityInitState) : EntityInitState :=
  let st1 := setupProperties st
    [("name", .strT), ("description", .strT), ("start_date", .strT),
     ("end_date", .strT), ("add_to_timeline", .boolT)]
  let v2 := dictUpdate st1.propertyValidators
    [("start_date", .datetimeV), ("end_date", .datetimeV)]
  let st2 := { st1 with propertyValidators := v2 }
  if dictHas st2.properties "add_to_timeline" then st2
  else { st2 with properties := dictSet st2.properties "add_to_timeline" (.bool false) }

/-- Event.update_label: the name property when present and truthy, else
"Event".  (After validation the name value is a string; str is applied here
so the model stays total.) -/
def eventUpdateLabel (props : List (String × PyVal)) : String :=
  match dictGet props "name" with
  | some v => if pyTruthy v then strOf v else "Event"
  | Option.none => "Event"

def eventClass : EntityClass :=
  { name := "Event"
    color := "#F22416"
    initProperties := eventInitProperties
    updateLabel := eventUpdateLabel }

/-- Person.init_properties. -/
def personInitProperties (st : EntityInitState) : EntityInitState :=
  let st1 := setupProperties st
    [("full_name", .strT), ("age", .intT), ("height", .floatT),
     ("nationality", .strT), ("occupation", .strT)]
  let v2 := dictUpdate st1.propertyValidators
    [("full_name", .stringV 2 Option.none Option.none),
     ("age", .integerV (some 0) (some 150)),
     ("height", .floatV (some 0) (some 300) Option.none),
     ("nationality", .stringV 2 Option.none Option.none)]
  { st1 with propertyValidators := v2 }

/-- Person.update_label via format_label(["full_name"]): str of the value
when present and truthy, else the class display name. -/
def personUpdateLabel (props : List (String × PyVal)) : String :=
  match dictGet props "full_name" with
  | some v => if pyTruthy v then strOf v else "Person"
  | Option.none => "Person"

def personClass : EntityClass :=
  { name := "Person"
    color := "#4CAF50"
    initProperties := personInitProperties
    updateLabel := personUpdateLabel }

/-- The modelled slice of the ENTITY_TYPES registry. -/
def entityRegistry : List (String × EntityClass) :=
  [("Event", eventClass), ("Person", personClass)]

/-- Event.to_dict: the serialized properties render datetime-valued
start_date and end_date as "%Y-%m-%d %H:%M" strings. -/
def eventDictFixDates (props : List (String × PyVal)) (k : String) :
    List (String × PyVal) :=
  match dictGet props k with
  | some (.datetime dt) => dictSet props k (.str (formatYMDHM dt))
  | _ => props

def eventToDict (e : EntityRec) : EntityDict :=
  let d := e.data
  { d with properties :=
      eventDictFixDates (eventDictFixDates d.properties "start_date") "end_date" }

/-- A hypothetical entity subclass whose init_properties registers a custom
validator for the standard property notes (a StringValidator with
min_length 5), exercising the standard-property merge of __post_init__. -/
def notesCustomValidator : Validator := .stringV 5 Option.none Option.none

def customNotesInitProperties (st : EntityInitState) : EntityInitState :=
  let st1 := setupProperties st [("notes", .strT)]
  { st1 with propertyValidators :=
      dictUpdate st1.propertyValidators [("notes", notesCustomValidator)] }

def customNotesClass : EntityClass :=
  { name := "CustomNotes"
    color := "#000000"
    initProperties := customNotesInitProperties
    updateLabel := fun _ => "CustomNotes" }

/- ## Section 4: the graph store (ui/managers/graph_manager.py) -/

/-- A NodeVisual object: it owns its entity, of which the graph code
consults the id.  Heap indices model Python object identity: the edges
hold references to their endpoint NodeVisual objects, and update_node
mutates the referenced object in place. -/
structure NodeObj where
  entityId : String
deriving DecidableEq, Repr

/-- The store: the arena of NodeVisual objects ever allocated, the nodes
dict (key, a heap reference) and the edges dict (edge id, source reference,
target reference).  Positions, styles, groups, map and timeline side
effects touch only collaborators outside the store. -/
structure GraphState where
  heap : List NodeObj
  nodes : List (String × Nat)
  edges : List (String × (Nat × Nat))
deriving DecidableEq, Repr

def graphEmpty : GraphState := ⟨[], [], []⟩

/-- The id of the entity currently held by the referenced NodeVisual
(edge.source.node.id in the Python code). -/
def heapId (heap : List NodeObj) (r : Nat) : String :=
  match heap.get? r with
  | some n => n.entityId
  | _ => ""

/-- GraphManager.add_node: an existing key is returned as-is (with a
warning); otherwise a NodeVisual is allocated and indexed under the
entity id. -/
def addNode (g : GraphState) (entityId : String) : GraphState :=
  if dictHas g.nodes entityId then g
  else
    { heap := g.heap ++ [⟨entityId⟩]
      nodes := g.nodes ++ [(entityId, g.heap.length)]
      edges := g.edges }

/-- GraphManager.add_edge: both endpoint keys must exist (else None is
returned and nothing changes); the edge id is "source->target"; an
existing id is returned as-is (with a warning); otherwise the edge is
stored, holding references to the two endpoint NodeVisuals.  The second
component is the returned edge. -/
def addEdgeR (g : GraphState) (sourceId targetId : String) :
    GraphState × Option (String × (Nat × Nat)) :=
  if dictHas g.nodes sourceId && dictHas g.nodes targetId then
    let edgeId := sourceId ++ "->" ++ targetId
    match dictGet g.edges edgeId with
    | some e => (g, some (edgeId, e))
    | Option.none =>
      let e := ((dictGet g.nodes sourceId).getD 0, (dictGet g.nodes targetId).getD 0)
      ({ g with edges := g.edges ++ [(edgeId, e)] }, some (edgeId, e))
  else (g, Option.none)

/-- GraphManager.update_node: replace the entity of the referenced
NodeVisual in place (a missing key is ignored with a warning).  The nodes
dict key does not change, so an entity carrying a different id
desynchronizes the key from the entity id. -/
def updateNode (g : GraphState) (nodeId : String) (entityId : String) : GraphState :=
  match dictGet g.nodes nodeId with
  | some r => { g with heap := g.heap.set r ⟨entityId⟩ }
  | Option.none => g

/-- GraphManager.remove_node: the incident edges - those whose source or
target NodeVisual currently holds an entity with the removed id - are
removed first, then the node entry (a missing key is ignored). -/
def removeNode (g : GraphState) (nodeId : String) : GraphState :=
  if dictHas g.nodes nodeId then
    { g with
      edges := g.edges.filter
        (fun e => !(heapId g.heap e.2.1 == nodeId || heapId g.heap e.2.2 == nodeId))
      nodes := g.nodes.filter (fun p => !(p.1 == nodeId)) }
  else g

/-- GraphManager.clear: empties nodes and edges (and the groups, which are
outside the modelled state). -/
def clearGraph (g : GraphState) : GraphState :=
  { g with nodes := [], edges := [] }

/-- A store operation of the claim. -/
inductive GraphOp where
  | addNodeOp (entityId : String)
  | addEdgeOp (sourceId targetId : String)
  | updateNodeOp (nodeId entityId : String)
  | removeNodeOp (nodeId : String)
  | clearOp
deriving DecidableEq, Repr

def applyOp (g : GraphState) : GraphOp → GraphState
  | .addNodeOp i => addNode g i
  | .addEdgeOp s t => (addEdgeR g s t).1
  | .updateNodeOp n i => updateNode g n i
  | .removeNodeOp n => removeNode g n
  | .clearOp => clearGraph g

def runOps (ops : List GraphOp) : GraphState := ops.foldl applyOp graphEmpty

/-- An update_node call whose entity keeps the id under which the node is
indexed, as every caller in the repository does. -/
def GraphOp.idPreserving : GraphOp → Prop
  | .updateNodeOp n i => n = i
  | _ => True

instance : DecidablePred GraphOp.idPreserving := by
  intro op
  cases op <;> simp [GraphOp.idPreserving] <;> infer_instance

/-- The store invariant of the claim: every edge endpoint entity id is a
current node key, and the edge ids are pairwise distinct - and since an
edge id is derived from the ordered key pair, at most one directed edge
exists per ordered pair. -/
def GraphInv (g : GraphState) : Prop :=
  (∀ e ∈ g.edges, heapId g.heap e.2.1 ∈ g.nodes.map Prod.fst ∧
    heapId g.heap e.2.2 ∈ g.nodes.map Prod.fst) ∧
  (g.edges.map Prod.fst).Nodup

instance : DecidablePred GraphInv := by
  intro g
  unfold GraphInv
  infer_instance

/-- The inductive strengthening: node references are live and agree with
their keys, node keys are distinct, edge references are live with both
endpoint ids current node keys, the edge id is the rendered ordered pair,
and edge ids are distinct. -/
def GraphCoherent (g : GraphState) : Prop :=
  (∀ p ∈ g.nodes, p.2 < g.heap.length ∧ heapId g.heap p.2 = p.1) ∧
  (g.nodes.map Prod.fst).Nodup ∧
  (∀ e ∈ g.edges, e.2.1 < g.heap.length ∧ e.2.2 < g.heap.length ∧
    heapId g.heap e.2.1 ∈ g.nodes.map Prod.fst ∧ heapId g.heap e.2.2 ∈ g.nodes.map Prod.fst ∧
    e.1 = heapId g.heap e.2.1 ++ "->" ++ heapId g.heap e.2.2) ∧
  (g.edges.map Prod.fst).Nodup

instance : DecidablePred GraphCoherent := by
  intro g
  unfold GraphCoherent
  infer_instance

/- ## Section 5: merge resolver similarity (ui/components/ai_dock.py) -/

/-- The regex class \w over the ASCII range: letters, digits, underscore. -/
def isWordChar (c : Char) : Bool :=
  c.isAlpha || c.isDigit || c == '_'

def toLowerStr (s : String) : String := String.mk (s.toList.map Char.toLower)

/-- text.split(): split on whitespace runs, no empty words (structural
recursion over the character list, accumulating the current word). -/
def splitWordsGo : List Char → List Char → List String
  | [], acc => if acc.isEmpty then [] else [String.mk acc.reverse]
  | c :: cs, acc =>
    if c.isWhitespace then
      (if acc.isEmpty then [] else [String.mk acc.reverse]) ++ splitWordsGo cs []
    else splitWordsGo cs (c :: acc)

def splitWords (s : String) : List String := splitWordsGo s.toList []

/-- AIDock._normalize_text: lowercase, drop characters that are neither
word characters nor whitespace, collapse whitespace. -/
def normalizeText (s : String) : String :=
  let kept := (toLowerStr s).toList.filter (fun c => isWordChar c || c.isWhitespace)
  String.intercalate " " (splitWords (String.mk kept))

/-- set(normalized.split()): the set of words of a label, canonically
represented as a duplicate-free list; the arbitrary order that Python set
iteration exposes is supplied separately (setOrder below) wherever the
code observes it. -/
def wordSet (s : String) : List String :=
  (splitWords (normalizeText s)).dedup

def interCount (w1 w2 : List String) : Nat :=
  (w1.filter (fun w => w2.contains w)).length

def unionCount (w1 w2 : List String) : Nat :=
  w1.length + w2.length - interCount w1 w2

def avgWordLen (w : List String) : ℚ :=
  ((w.map String.length).sum : ℚ) / (w.length : ℚ)

/-- AIDock._get_similarity_score on two word sets given as duplicate-free
lists: 0.4 Jaccard + 0.2 average-word-length ratio + 0.4 overlap
coefficient, in exact rational arithmetic (every comparison the claims
make is far from any float rounding boundary). -/
def getSimilarityScore (w1 w2 : List String) : ℚ :=
  if w1.isEmpty || w2.isEmpty then 0
  else
    let inter : ℚ := (interCount w1 w2 : ℚ)
    let union : ℚ := (unionCount w1 w2 : ℚ)
    let jaccard : ℚ := if 0 < unionCount w1 w2 then inter / union else 0
    let a1 := avgWordLen w1
    let a2 := avgWordLen w2
    let lengthSim : ℚ := (min a1 a2) / (max a1 a2)
    let overlap : ℚ :=
      if 0 < min w1.length w2.length then inter / ((min w1.length w2.length : Nat) : ℚ) else 0
    jaccard * (2/5) + lengthSim * (1/5) + overlap * (2/5)

/-- The significant-word test of the event boost: the two labels share a
word longer than four characters. -/
def sigShare (w1 w2 : List String) : Bool :=
  (w1.filter (fun w => 4 < w.length)).any
    (fun w => (w2.filter (fun x => 4 < x.length)).contains w)

/-- The per-candidate score of _find_matching_entity including the
type-specific boosts; the word lists carry the set iteration order. -/
def candidateScore (entityType : String) (labelWords nodeWords : List String) : ℚ :=
  let score0 := getSimilarityScore labelWords nodeWords
  if entityType == "event" then
    if sigShare labelWords nodeWords then score0 * (3/2) else score0
  else if entityType == "person" && !labelWords.isEmpty && !nodeWords.isEmpty then
    if labelWords.head? == nodeWords.head? then score0 * (3/2) else score0
  else score0

/-- s.split(":", 1): the part before the first colon and the rest; no colon
means the tuple unpacking raises ValueError, which the scan loop catches
and skips. -/
def splitFirstColon (s : String) : Option (String × String) :=
  match s.toList.findIdx? (fun c => c == ':') with
  | some i => some (String.mk (s.toList.take i), String.mk (s.toList.drop (i + 1)))
  | _ => Option.none

/-- AIDock._find_matching_entity over the existing-node lookup (key, node):
exact lowercased "type:label" key match first, then the best-scoring
same-type candidate with strictly increasing score at or above the
per-type threshold (0.5 for event, 0.7 otherwise); first candidate scanned
wins ties.  setOrder is the enumeration order that list() applied to a
Python set exposes. -/
def findMatchingEntity (setOrder : List String → List String)
    (entityType label : String) (nodes : List (String × String)) : Option String :=
  let et := toLowerStr entityType
  let labelWords := setOrder (wordSet label)
  let key := et ++ ":" ++ toLowerStr label
  match dictGet nodes key with
  | some v => some v
  | Option.none =>
    let step := fun (best : Option String × ℚ) (p : String × String) =>
      match splitFirstColon (toLowerStr p.1) with
      | Option.none => best
      | some (nodeType, nodeLabel) =>
        if nodeType == et then
          let nodeWords := setOrder (wordSet nodeLabel)
          let score := candidateScore et labelWords nodeWords
          let threshold : ℚ := if et == "event" then 1/2 else 7/10
          if best.2 < score ∧ threshold ≤ score then (some p.2, score) else best
        else best
    (nodes.foldl step (Option.none, 0)).1

/-- A set-iteration order that enumerates the word "doe" first: one of the
orders Python hash randomization can produce for these sets. -/
def doeFirst (l : List String) : List String :=
  l.filter (fun w => w == "doe") ++ l.filter (fun w => !(w == "doe"))

/-- Whether a result is a raised PropertyValidationError (as opposed to a
success or any other exception). -/
def isPropertyValidationError {α : Type} : Except ValErr α → Bool
  | .error (.propertyValidation _ _ _) => true
  | _ => false

/- ## Theorems -/

/-- Claim C1 (code_bug evaluation): executing a transform on an entity whose
class name is not in input_types does raise without consulting run (the
result is the same for a run that would succeed and for a run that would
fail), but the error that escapes execute is a TransformExecutionError
wrapping the TransformValidationError, not a TransformValidationError: the
except Exception clause of execute catches the validation error raised
inside its own try block.  This contradicts the docstring of execute
("Raises: TransformValidationError: If input validation fails"). -/
theorem c1_execute_wraps_validation_error :
    Transform.execute emailOnlyStub ⟨"Person"⟩ =
      .error (.transformExecution
        "Transform Stub failed: Entity type Person not supported by transform Stub"
        (.transformValidation "Entity type Person not supported by transform Stub"))
    ∧ Transform.execute { emailOnlyStub with run := failStub.run } ⟨"Person"⟩ =
        Transform.execute emailOnlyStub ⟨"Person"⟩
    ∧ Transform.execute badOutputStub ⟨"Email"⟩ =
        .error (.transformExecution
          "Transform BadOut failed: Transform BadOut returned invalid output types"
          (.transformValidation "Transform BadOut returned invalid output types")) := by
  refine ⟨rfl, rfl, rfl⟩

/-- Claim C9: whenever run raises any exception on a valid input, execute
raises TransformExecutionError whose message is
"Transform {name} failed: {str(cause)}" - so the message contains the
transform name - chaining the original exception as the cause; the raw
exception never escapes unwrapped. -/
theorem c9_execute_wraps_run_exception (t : Transform) (e : TEntity) (exc : PyExc)
    (hin : t.validateInput e = true) (hrun : t.run e = .error exc) :
    t.execute e =
      .error (.transformExecution ("Transform " ++ t.name ++ " failed: " ++ exc.message) exc)
    ∧ ∃ pre post, ("Transform " ++ t.name ++ " failed: " ++ exc.message) = pre ++ t.name ++ post := by
  constructor
  · unfold Transform.execute Transform.tryBody
    rw [hin, hrun]
    simp
  · exact ⟨"Transform ", " failed: " ++ exc.message, by simp [String.append_assoc]⟩

/-- Claim C9 witness: the failStub transform on an Email entity. -/
theorem c9_witness :
    failStub.validateInput ⟨"Email"⟩ = true
    ∧ failStub.execute ⟨"Email"⟩ =
      .error (.transformExecution
        ("Transform " ++ failStub.name ++ " failed: " ++ (PyExc.otherExc "boom").message)
        (.otherExc "boom")) :=
  ⟨by decide, (c9_execute_wraps_run_exception failStub ⟨"Email"⟩ (.otherExc "boom")
    (by decide) rfl).1⟩

/- Association list (Python dict) lemmas. -/

theorem dictGet_cons {α : Type} (p : String × α) (l : List (String × α)) (k : String) :
    dictGet (p :: l) k = if p.1 == k then some p.2 else dictGet l k := by
  by_cases h : p.1 == k
  · simp [dictGet, List.find?_cons_of_pos, h]
  · simp only [dictGet] at *
    rw [List.find?_cons_of_neg]
    · simp [h]
    · simpa using h

theorem dictHas_cons {α : Type} (p : String × α) (l : List (String × α)) (k : String) :
    dictHas (p :: l) k = ((p.1 == k) || dictHas l k) := by
  simp [dictHas]

theorem dictHas_iff {α : Type} (l : List (String × α)) (k : String) :
    dictHas l k = true ↔ k ∈ l.map Prod.fst := by
  induction l with
  | nil => simp [dictHas]
  | cons p t ih =>
    rw [dictHas_cons]
    simp only [List.map_cons, List.mem_cons, Bool.or_eq_true, beq_iff_eq, ih]
    constructor
    · rintro (h | h)
      · exact Or.inl h.symm
      · exact Or.inr h
    · rintro (h | h)
      · exact Or.inl h.symm
      · exact Or.inr h

theorem dictGet_eq_none_of_not_has {α : Type} (l : List (String × α)) (k : String)
    (h : dictHas l k = false) : dictGet l k = Option.none := by
  induction l with
  | nil => rfl
  | cons p t ih =>
    rw [dictHas_cons] at h
    rw [dictGet_cons]
    rcases Bool.or_eq_false_iff.mp h with ⟨h1, h2⟩
    simp [h1, ih h2]

theorem dictGet_mem {α : Type} (l : List (String × α)) (k : String) (v : α)
    (h : dictGet l k = some v) : (k, v) ∈ l := by
  induction l with
  | nil => simp [dictGet] at h
  | cons p t ih =>
    rw [dictGet_cons] at h
    by_cases hp : p.1 == k
    · obtain ⟨p1, p2⟩ := p
      simp only [beq_iff_eq] at hp
      subst hp
      simp only [beq_self_eq_true, if_true, Option.some.injEq] at h
      subst h
      exact List.mem_cons_self _ _
    · simp only [hp, if_false] at h
      exact List.mem_cons_of_mem _ (ih h)

theorem dictGet_dictSet_self {α : Type} (l : List (String × α)) (k : String) (v : α) :
    dictGet (dictSet l k v) k = some v := by
  induction l with
  | nil => simp [dictSet, dictGet_cons]
  | cons p t ih =>
    by_cases h : p.1 == k
    · simp [dictSet, h, dictGet_cons]
    · simp [dictSet, h, dictGet_cons, ih]

theorem dictGet_dictSet_ne {α : Type} (l : List (String × α)) (k k2 : String) (v : α)
    (h : k ≠ k2) : dictGet (dictSet l k2 v) k = dictGet l k := by
  induction l with
  | nil => simp [dictSet, dictGet_cons, dictGet, bne, h, Ne.symm h]
  | cons p t ih =>
    by_cases hp : p.1 == k2
    · have hpk : ¬(p.1 == k) = true := by
        simp only [beq_iff_eq] at hp ⊢
        rw [hp]
        exact Ne.symm h
      simp only [dictSet, hp, if_true, dictGet_cons, beq_iff_eq]
      rw [if_neg (fun he => absurd he.symm h), if_neg (by simpa using hpk)]
    · simp [dictSet, hp, dictGet_cons, ih]

theorem dictSet_mem_self {α : Type} (l : List (String × α)) (k : String) (v : α)
    (hmem : (k, v) ∈ l) (hnd : (l.map Prod.fst).Nodup) : dictSet l k v = l := by
  induction l with
  | nil => simp at hmem
  | cons p t ih =>
    simp only [List.map_cons, List.nodup_cons] at hnd
    rcases List.mem_cons.mp hmem with h | h
    · subst h
      simp [dictSet]
    · have hp : ¬(p.1 == k) := by
        intro he
        exact hnd.1 (by
          rw [beq_iff_eq] at he
          rw [he]
          exact List.mem_map_of_mem Prod.fst h)
      simp [dictSet, hp, ih h hnd.2]

theorem dictSet_map_fst_of_has {α : Type} (l : List (String × α)) (k : String) (v : α)
    (h : dictHas l k = true) : (dictSet l k v).map Prod.fst = l.map Prod.fst := by
  induction l with
  | nil => simp [dictHas] at h
  | cons p t ih =>
    rw [dictHas_cons] at h
    by_cases hp : p.1 == k
    · simp [dictSet, hp]
      exact (beq_iff_eq.mp hp).symm
    · simp only [hp, Bool.false_or] at h
      simp [dictSet, hp, ih h]

theorem dictGet_append_of_none {α : Type} (l m : List (String × α)) (k : String)
    (h : dictGet l k = Option.none) : dictGet (l ++ m) k = dictGet m k := by
  induction l with
  | nil => simp
  | cons p t ih =>
    rw [dictGet_cons] at h
    by_cases hp : p.1 == k
    · simp [hp] at h
    · rw [List.cons_append, dictGet_cons]
      simp only [hp, if_false] at h ⊢
      exact ih h

theorem dictGet_append_of_some {α : Type} (l m : List (String × α)) (k : String) (v : α)
    (h : dictGet l k = some v) : dictGet (l ++ m) k = some v := by
  induction l with
  | nil => simp [dictGet] at h
  | cons p t ih =>
    rw [dictGet_cons] at h
    rw [List.cons_append, dictGet_cons]
    by_cases hp : p.1 == k
    · simpa [hp] using h
    · simp only [hp, if_false] at h ⊢
      exact ih h

/- Datetime formatting and parsing lemmas. -/

theorem digitVal_digitChar (d : Nat) (h : d < 10) : digitVal (digitChar d) = d := by
  interval_cases d <;> decide

theorem isDigitChar_digitChar (d : Nat) (h : d < 10) : isDigitChar (digitChar d) = true := by
  interval_cases d <;> decide

theorem takeDigits_digit (m : Nat) (c : Char) (cs : List Char) (acc : Nat)
    (h : isDigitChar c = true) :
    takeDigits (m + 1) (c :: cs) acc = takeDigits m cs (acc * 10 + digitVal c) := by
  simp [takeDigits, h]

theorem takeDigits_zero (cs : List Char) (acc : Nat) : takeDigits 0 cs acc = (acc, cs) := by
  cases cs <;> simp [takeDigits]

theorem parseNumField_pad2 (n : Nat) (rest : List Char) (hn : n ≤ 99) :
    parseNumField 2 (pad2 n ++ rest) = some (n, rest) := by
  have h1 : n / 10 % 10 < 10 := Nat.mod_lt _ (by norm_num)
  have h2 : n % 10 < 10 := Nat.mod_lt _ (by norm_num)
  simp only [pad2, List.cons_append, List.nil_append, parseNumField,
    isDigitChar_digitChar _ h1, if_true]
  rw [show (2 : Nat) - 1 = 0 + 1 from rfl, takeDigits_digit _ _ _ _ (isDigitChar_digitChar _ h2),
    takeDigits_zero, digitVal_digitChar _ h1, digitVal_digitChar _ h2]
  have hval : n / 10 % 10 * 10 + n % 10 = n := by omega
  rw [hval]

theorem parseNum4_pad4 (n : Nat) (rest : List Char) (hn : n ≤ 9999) :
    parseNum4 (pad4 n ++ rest) = some (n, rest) := by
  have h1 : n / 1000 % 10 < 10 := Nat.mod_lt _ (by norm_num)
  have h2 : n / 100 % 10 < 10 := Nat.mod_lt _ (by norm_num)
  have h3 : n / 10 % 10 < 10 := Nat.mod_lt _ (by norm_num)
  have h4 : n % 10 < 10 := Nat.mod_lt _ (by norm_num)
  simp only [pad4, List.cons_append, List.nil_append, parseNum4,
    isDigitChar_digitChar _ h1, isDigitChar_digitChar _ h2, isDigitChar_digitChar _ h3,
    isDigitChar_digitChar _ h4, Bool.true_and, Bool.and_self, if_true,
    digitVal_digitChar _ h1, digitVal_digitChar _ h2, digitVal_digitChar _ h3,
    digitVal_digitChar _ h4]
  have hval : ((n / 1000 % 10 * 10 + n / 100 % 10) * 10 + n / 10 % 10) * 10 + n % 10 = n := by
    omega
  rw [hval]

theorem digitChar_ne_space (d : Nat) (h : d < 10) : (digitChar d == ' ') = false := by
  interval_cases d <;> decide

theorem parseDayField_pad2 (n : Nat) (rest : List Char) (hn : n ≤ 99) :
    parseDayField (pad2 n ++ rest) = some (n, rest) := by
  have h1 : n / 10 % 10 < 10 := Nat.mod_lt _ (by norm_num)
  simp only [pad2, List.cons_append, List.nil_append, parseDayField,
    digitChar_ne_space _ h1, Bool.false_eq_true, if_false]
  simpa only [pad2, List.cons_append, List.nil_append] using parseNumField_pad2 n rest hn

theorem parseNumField_pad2_nil (n : Nat) (hn : n ≤ 99) :
    parseNumField 2 (pad2 n) = some (n, []) := by
  have := parseNumField_pad2 n [] hn
  simpa using this

theorem parseLit_cons (c : Char) (rest : List Char) : parseLit c (c :: rest) = some rest := by
  simp [parseLit]

theorem digitChar_not_ws (d : Nat) (h : d < 10) : (digitChar d).isWhitespace = false := by
  interval_cases d <;> decide

theorem parseGap_space (rest : List Char)
    (hrest : ∀ c, rest.head? = some c → c.isWhitespace = false) :
    parseGap (' ' :: rest) = some rest := by
  have hws : (' ' : Char).isWhitespace = true := by decide
  simp only [parseGap, hws, if_true, Option.some.injEq]
  cases rest with
  | nil => rfl
  | cons c t =>
    have := hrest c rfl
    simp [List.dropWhile, this]

theorem daysInMonth_le (y m : Nat) : daysInMonth y m ≤ 31 := by
  unfold daysInMonth
  split_ifs <;> omega

theorem parseYMDHM_format (dt : PyDateTime) (h : dt.valid = true) :
    parseYMDHM (formatYMDHM dt) = some ⟨dt.year, dt.month, dt.day, dt.hour, dt.minute, 0⟩ := by
  obtain ⟨hy1, hy2, hm1, hm2, hd1, hd2, hh, hmi, -⟩ := of_decide_eq_true h
  have hmo99 : dt.month ≤ 99 := le_trans hm2 (by norm_num)
  have hd99 : dt.day ≤ 99 := le_trans hd2 (le_trans (daysInMonth_le _ _) (by norm_num))
  have hh99 : dt.hour ≤ 99 := le_trans hh (by norm_num)
  have hmi99 : dt.minute ≤ 99 := le_trans hmi (by norm_num)
  have s1 := parseNum4_pad4 dt.year
    ('-' :: (pad2 dt.month ++ '-' :: (pad2 dt.day ++
      ' ' :: (pad2 dt.hour ++ ':' :: pad2 dt.minute)))) hy2
  have s2 := parseLit_cons '-'
    (pad2 dt.month ++ '-' :: (pad2 dt.day ++ ' ' :: (pad2 dt.hour ++ ':' :: pad2 dt.minute)))
  have s3 := parseNumField_pad2 dt.month
    ('-' :: (pad2 dt.day ++ ' ' :: (pad2 dt.hour ++ ':' :: pad2 dt.minute))) hmo99
  have s4 := parseLit_cons '-'
    (pad2 dt.day ++ ' ' :: (pad2 dt.hour ++ ':' :: pad2 dt.minute))
  have s5 := parseDayField_pad2 dt.day
    (' ' :: (pad2 dt.hour ++ ':' :: pad2 dt.minute)) hd99
  have s6 := parseGap_space (pad2 dt.hour ++ ':' :: pad2 dt.minute) (by
    intro c hc
    simp only [pad2, List.cons_append, List.head?_cons, Option.some.injEq] at hc
    subst hc
    exact digitChar_not_ws _ (Nat.mod_lt _ (by norm_num)))
  have s7 := parseNumField_pad2 dt.hour (':' :: pad2 dt.minute) hh99
  have s8 := parseLit_cons ':' (pad2 dt.minute)
  have s9 := parseNumField_pad2_nil dt.minute hmi99
  have hstart : parseYMDHM (formatYMDHM dt) =
      parseYMDHMList (pad4 dt.year ++ '-' :: (pad2 dt.month ++ '-' :: (pad2 dt.day ++
        ' ' :: (pad2 dt.hour ++ ':' :: pad2 dt.minute)))) := rfl
  rw [hstart]
  unfold parseYMDHMList
  simp only [s1, s2, s3, s4, s5, s6, s7, s8, s9]
  rw [if_pos (show ([] : List Char).isEmpty = true from rfl)]
  rw [if_pos]
  unfold PyDateTime.valid
  apply decide_eq_true
  exact ⟨hy1, hy2, hm1, hm2, hd1, hd2, hh, hmi, by norm_num⟩

theorem parseYMDHMList_valid (cs : List Char) (d : PyDateTime)
    (h : parseYMDHMList cs = some d) : d.valid = true := by
  unfold parseYMDHMList at h
  repeat' split at h
  all_goals try simp_all
  all_goals (obtain ⟨h1, h2⟩ := h; exact h2 ▸ h1)

theorem parseYMDHMSList_valid (cs : List Char) (d : PyDateTime)
    (h : parseYMDHMSList cs = some d) : d.valid = true := by
  unfold parseYMDHMSList at h
  repeat' split at h
  all_goals try simp_all
  all_goals (obtain ⟨h1, h2⟩ := h; exact h2 ▸ h1)

theorem parseYMDHM_valid (s : String) (d : PyDateTime)
    (h : parseYMDHM s = some d) : d.valid = true :=
  parseYMDHMList_valid _ _ h

theorem parseYMDHMS_valid (s : String) (d : PyDateTime)
    (h : parseYMDHMS s = some d) : d.valid = true :=
  parseYMDHMSList_valid _ _ h

/-- formatYMDHM does not read the seconds field. -/
theorem formatYMDHM_drop_second (d : PyDateTime) :
    formatYMDHM ⟨d.year, d.month, d.day, d.hour, d.minute, 0⟩ = formatYMDHM d := rfl

theorem dateTimeValidateStr_format (d : PyDateTime) (hv : d.valid = true) :
    dateTimeValidateStr (formatYMDHM d) = .ok (.str (formatYMDHM d)) := by
  unfold dateTimeValidateStr
  rw [parseYMDHM_format d hv]
  rfl

theorem dateTimeValidate_ok_form (v y : PyVal) (hWF : v.WF) (h : dateTimeValidate v = .ok y) :
    ∃ d, d.valid = true ∧ y = .str (formatYMDHM d) := by
  have hstr : ∀ s, dateTimeValidateStr s = .ok y →
      ∃ d, d.valid = true ∧ y = .str (formatYMDHM d) := by
    intro s hs
    unfold dateTimeValidateStr at hs
    cases hp : parseYMDHM s with
    | some d1 =>
      rw [hp] at hs
      refine ⟨d1, parseYMDHM_valid s d1 hp, ?_⟩
      injection hs with hs2
      exact hs2.symm
    | none =>
      rw [hp] at hs
      cases hp2 : parseYMDHMS s with
      | some d2 =>
        rw [hp2] at hs
        refine ⟨d2, parseYMDHMS_valid s d2 hp2, ?_⟩
        injection hs with hs2
        exact hs2.symm
      | none =>
        rw [hp2] at hs
        exact absurd hs (by simp)
  cases v with
  | datetime d =>
    refine ⟨d, hWF, ?_⟩
    unfold dateTimeValidate at h
    injection h with h2
    exact h2.symm
  | str s => exact hstr _ h
  | int n => exact hstr _ h
  | float q => exact hstr _ h
  | bool b => exact hstr _ h
  | pynone =>
    have h2 : dateTimeValidateStr (strOf PyVal.pynone) = .ok y := h
    exact hstr _ h2

theorem dateTimeValidate_idem (v y : PyVal) (hWF : v.WF)
    (h : dateTimeValidate v = .ok y) : dateTimeValidate y = .ok y := by
  obtain ⟨d, hd, rfl⟩ := dateTimeValidate_ok_form v y hWF h
  show dateTimeValidateStr (strOf (.str (formatYMDHM d))) = _
  rw [show strOf (.str (formatYMDHM d)) = formatYMDHM d from rfl]
  exact dateTimeValidateStr_format d hd

/- Validator idempotence lemmas. -/

theorem pyCoerce_isInstance (t : PyType) (v u : PyVal) (h : pyCoerce t v = some u) :
    pyIsInstance u t = true := by
  cases t <;> cases v <;>
    simp_all [pyCoerce, pyIsInstance, Option.map_eq_some'] <;>
    (try obtain ⟨a, -, rfl⟩ := h) <;> simp [pyIsInstance]

theorem WF_of_isInstance (u : PyVal) (t : PyType) (h : pyIsInstance u t = true) : u.WF := by
  cases u <;> cases t <;> simp_all [pyIsInstance, PyVal.WF]

theorem genericValidate_isInstance (t : PyType) (v w : PyVal)
    (h : genericValidate t v = .ok w) : pyIsInstance w t = true := by
  unfold genericValidate at h
  by_cases hi : pyIsInstance v t
  · rw [if_pos hi] at h
    obtain rfl : v = w := by injection h
    exact hi
  · rw [if_neg hi] at h
    cases hc : pyCoerce t v with
    | none => rw [hc] at h; exact absurd h (by simp)
    | some u =>
      rw [hc] at h
      obtain rfl : u = w := by injection h
      exact pyCoerce_isInstance t v u hc

theorem genericValidate_idem (t : PyType) (v w : PyVal)
    (h : genericValidate t v = .ok w) : genericValidate t w = .ok w := by
  have hi := genericValidate_isInstance t v w h
  unfold genericValidate
  rw [if_pos hi]


theorem integerValidate_idem (mn mx : Option Int) (v w : PyVal)
    (h : integerValidate mn mx v = .ok w) : integerValidate mn mx w = .ok w := by
  cases hg : genericValidate .intT v with
  | error e =>
    simp only [integerValidate, hg] at h
    exact absurd h (by simp)
  | ok u =>
    simp only [integerValidate, hg] at h
    split_ifs at h with h1 h2
    obtain rfl : u = w := by injection h
    simp only [integerValidate, genericValidate_idem _ _ _ hg]
    rw [if_neg h1, if_neg h2]

theorem stringValidate_idem (mn : Nat) (mx : Option Nat)
    (pat : Option (String × (String → Bool))) (v w : PyVal)
    (h : stringValidate mn mx pat v = .ok w) : stringValidate mn mx pat w = .ok w := by
  simp only [stringValidate] at h ⊢
  split_ifs at h with h1 h2 h3
  obtain rfl : w = PyVal.str (strOf v) := by
    injection h with h4
    exact h4.symm
  rw [show strOf (PyVal.str (strOf v)) = strOf v from rfl]
  rw [if_neg h1, if_neg h2, if_neg h3]

theorem floatBounds_ok (mn mx : Option ℚ) (u w : PyVal)
    (h : (if ratMinViolated mn (pyFloatValue u) then
            (Except.error (ValErr.propertyValidation "unknown" u
              ("Value must be at least " ++ toString (mn.getD 0))) : Except ValErr PyVal)
          else if ratMaxViolated mx (pyFloatValue u) then
            Except.error (ValErr.propertyValidation "unknown" u
              ("Value must be at most " ++ toString (mx.getD 0)))
          else Except.ok u) = Except.ok w) :
    u = w ∧ ratMinViolated mn (pyFloatValue u) = false ∧
      ratMaxViolated mx (pyFloatValue u) = false := by
  split_ifs at h with h1 h2
  exact ⟨by injection h, by simpa using h1, by simpa using h2⟩

theorem floatValidate_ok_form (mn mx : Option ℚ) (v w : PyVal)
    (h : floatValidate mn mx v = .ok w) :
    ∃ q, w = PyVal.float q ∧ ratMinViolated mn q = false ∧ ratMaxViolated mx q = false := by
  cases v with
  | str s =>
    cases hp : parseFloatString s with
    | none => simp [floatValidate, hp] at h
    | some q =>
      simp only [floatValidate, hp] at h
      obtain ⟨rfl, ha, hb⟩ := floatBounds_ok mn mx (PyVal.float q) w h
      exact ⟨q, rfl, ha, hb⟩
  | float q =>
    simp only [floatValidate, genericValidate, pyIsInstance, if_true] at h
    obtain ⟨rfl, ha, hb⟩ := floatBounds_ok mn mx (PyVal.float q) w h
    exact ⟨q, rfl, ha, hb⟩
  | int n =>
    simp only [floatValidate, genericValidate, pyIsInstance, pyCoerce] at h
    obtain ⟨rfl, ha, hb⟩ := floatBounds_ok mn mx (PyVal.float (n : ℚ)) w h
    exact ⟨(n : ℚ), rfl, ha, hb⟩
  | bool b =>
    simp only [floatValidate, genericValidate, pyIsInstance, pyCoerce] at h
    obtain ⟨rfl, ha, hb⟩ := floatBounds_ok mn mx (PyVal.float (if b then 1 else 0)) w h
    exact ⟨(if b then 1 else 0), rfl, ha, hb⟩
  | pynone => simp [floatValidate, genericValidate, pyIsInstance, pyCoerce] at h
  | datetime d => simp [floatValidate, genericValidate, pyIsInstance, pyCoerce] at h

theorem floatValidate_idem (mn mx : Option ℚ) (v w : PyVal)
    (h : floatValidate mn mx v = .ok w) : floatValidate mn mx w = .ok w := by
  obtain ⟨q, rfl, h1, h2⟩ := floatValidate_ok_form mn mx v w h
  simp [floatValidate, genericValidate, pyIsInstance, pyFloatValue, h1, h2]

theorem listValidate_idem (choices : List String) (allowEmpty : Bool) (v w : PyVal)
    (h : listValidate choices allowEmpty v = .ok w) :
    listValidate choices allowEmpty w = .ok w := by
  simp only [listValidate] at h ⊢
  by_cases h1 : (!pyTruthy v && allowEmpty) = true
  · rw [if_pos h1] at h
    obtain rfl : w = PyVal.str "" := by injection h with h4; exact h4.symm
    have h5 : (!pyTruthy (PyVal.str "") && allowEmpty) = true := by
      simp only [Bool.and_eq_true] at h1
      simp [pyTruthy, h1.2]
    rw [if_pos h5]
  · rw [if_neg h1] at h
    by_cases h2 : choices.contains (strOf v) = true
    · rw [if_pos h2] at h
      obtain rfl : w = PyVal.str (strOf v) := by injection h with h4; exact h4.symm
      by_cases h3 : (!pyTruthy (PyVal.str (strOf v)) && allowEmpty) = true
      · have hs2 : strOf v = "" := by
          simp only [Bool.and_eq_true] at h3
          have := h3.1
          simp [pyTruthy] at this
          exact this
        rw [if_pos h3, hs2]
      · rw [if_neg h3]
        rw [show strOf (PyVal.str (strOf v)) = strOf v from rfl]
        rw [if_pos h2]
    · rw [if_neg h2] at h
      exact absurd h (by simp)

theorem validator_idem (vd : Validator) (x y : PyVal) (hWF : x.WF)
    (h : vd.validate x = .ok y) : vd.validate y = .ok y := by
  cases vd with
  | generic t => exact genericValidate_idem t x y h
  | stringV a b c => exact stringValidate_idem a b c x y h
  | integerV a b => exact integerValidate_idem a b x y h
  | floatV a b p => exact floatValidate_idem a b x y h
  | listV c e => exact listValidate_idem c e x y h
  | datetimeV => exact dateTimeValidate_idem x y hWF h

/-- Validator outputs are well-formed: no validator ever produces a
datetime value. -/
theorem validate_ok_WF (vd : Validator) (x y : PyVal) (hWF : x.WF)
    (h : vd.validate x = .ok y) : y.WF := by
  cases vd with
  | generic t => exact WF_of_isInstance y t (genericValidate_isInstance t x y h)
  | stringV a b c =>
    have h2 : stringValidate a b c x = .ok y := h
    simp only [stringValidate] at h2
    split_ifs at h2
    obtain rfl : y = PyVal.str (strOf x) := by injection h2 with h4; exact h4.symm
    trivial
  | integerV a b =>
    have h2 : integerValidate a b x = .ok y := h
    cases hg : genericValidate .intT x with
    | error e =>
      simp only [integerValidate, hg] at h2
      exact absurd h2 (by simp)
    | ok u =>
      simp only [integerValidate, hg] at h2
      split_ifs at h2
      obtain rfl : u = y := by injection h2
      exact WF_of_isInstance _ .intT (genericValidate_isInstance .intT x _ hg)
  | floatV a b p =>
    obtain ⟨q, rfl, -, -⟩ := floatValidate_ok_form a b x y h
    trivial
  | listV c e =>
    have h2 : listValidate c e x = .ok y := h
    simp only [listValidate] at h2
    by_cases h1 : (!pyTruthy x && e) = true
    · rw [if_pos h1] at h2
      obtain rfl : y = PyVal.str "" := by injection h2 with h4; exact h4.symm
      trivial
    · rw [if_neg h1] at h2
      by_cases h3 : c.contains (strOf x) = true
      · rw [if_pos h3] at h2
        obtain rfl : y = PyVal.str (strOf x) := by injection h2 with h4; exact h4.symm
        trivial
      · rw [if_neg h3] at h2
        exact absurd h2 (by simp)
  | datetimeV =>
    obtain ⟨d, -, rfl⟩ := dateTimeValidate_ok_form x y hWF h
    trivial

theorem dictGet_of_mem_nodup {α : Type} (l : List (String × α)) (k : String) (v : α)
    (hmem : (k, v) ∈ l) (hnd : (l.map Prod.fst).Nodup) : dictGet l k = some v := by
  induction l with
  | nil => simp at hmem
  | cons p t ih =>
    simp only [List.map_cons, List.nodup_cons] at hnd
    rcases List.mem_cons.mp hmem with h | h
    · subst h
      rw [dictGet_cons]
      simp
    · have hne : ¬(p.1 == k) = true := by
        intro he
        rw [beq_iff_eq] at he
        exact hnd.1 (by rw [he]; exact List.mem_map_of_mem Prod.fst h)
      rw [dictGet_cons]
      simp only [hne, if_false]
      exact ih h hnd.2

theorem validateOne_error_name (cls : String) (types : List (String × PyType))
    (vals : List (String × Validator)) (k : String) (v : PyVal) (n : String) (v2 : PyVal)
    (exp : String)
    (h : validateOne cls types vals k v = .error (.propertyValidation n v2 exp)) : n = k := by
  simp only [validateOne] at h
  by_cases hk : dictHas types k = true
  · rw [if_pos hk] at h
    cases hv : (((dictGet vals k).getD (.generic ((dictGet types k).getD .strT))).validate v) with
    | ok w =>
      rw [hv] at h
      exact absurd h (by simp)
    | error e =>
      rw [hv] at h
      cases e with
      | propertyValidation n0 v0 e0 =>
        injection h with h2
        injection h2 with ha hb hc
        exact ha.symm
      | valueErr m =>
        exact absurd h (by simp)
  · rw [if_neg hk] at h
    injection h with h2
    injection h2 with ha hb hc
    exact ha.symm

theorem validatePropsGo_error_name (cls : String) (types : List (String × PyType))
    (vals : List (String × Validator)) (l acc : List (String × PyVal)) (n : String)
    (v2 : PyVal) (exp : String)
    (h : validatePropsGo cls types vals acc l = .error (.propertyValidation n v2 exp)) :
    n ∈ l.map Prod.fst := by
  induction l generalizing acc with
  | nil => simp [validatePropsGo] at h
  | cons p t ih =>
    obtain ⟨k0, v0⟩ := p
    simp only [validatePropsGo] at h
    cases hv : validateOne cls types vals k0 v0 with
    | ok w =>
      rw [hv] at h
      exact List.mem_cons_of_mem _ (ih (dictSet acc k0 w) h)
    | error e =>
      rw [hv] at h
      injection h with h2
      subst h2
      exact List.mem_cons.mpr (Or.inl (validateOne_error_name _ _ _ _ _ _ _ _ hv))

theorem validatePropsGo_preserves (cls : String) (types : List (String × PyType))
    (vals : List (String × Validator)) (l acc acc2 : List (String × PyVal)) (k : String)
    (h : validatePropsGo cls types vals acc l = .ok acc2)
    (hk : ∀ v, (k, v) ∉ l) :
    dictGet acc2 k = dictGet acc k := by
  induction l generalizing acc with
  | nil =>
    simp only [validatePropsGo] at h
    injection h with h2
    rw [h2]
  | cons p t ih =>
    obtain ⟨k0, v0⟩ := p
    simp only [validatePropsGo] at h
    cases hv : validateOne cls types vals k0 v0 with
    | ok w =>
      rw [hv] at h
      have hne : k ≠ k0 := by
        intro he
        exact hk v0 (by rw [he]; exact List.mem_cons_self _ _)
      rw [ih (dictSet acc k0 w) h (fun v hv2 => hk v (List.mem_cons_of_mem _ hv2))]
      exact dictGet_dictSet_ne acc k k0 w hne
    | error e =>
      rw [hv] at h
      exact absurd h (by simp)

theorem validatePropsGo_sets (cls : String) (types : List (String × PyType))
    (vals : List (String × Validator)) (l acc acc2 : List (String × PyVal))
    (h : validatePropsGo cls types vals acc l = .ok acc2)
    (hnd : (l.map Prod.fst).Nodup) :
    ∀ k v, (k, v) ∈ l →
      ∃ w, validateOne cls types vals k v = .ok w ∧ dictGet acc2 k = some w := by
  induction l generalizing acc with
  | nil => intro k v hm; simp at hm
  | cons p t ih =>
    obtain ⟨k0, v0⟩ := p
    simp only [List.map_cons, List.nodup_cons] at hnd
    simp only [validatePropsGo] at h
    intro k v hm
    cases hv : validateOne cls types vals k0 v0 with
    | error e => rw [hv] at h; exact absurd h (by simp)
    | ok w =>
      rw [hv] at h
      rcases List.mem_cons.mp hm with he | hmt
      · obtain ⟨rfl, rfl⟩ : k = k0 ∧ v = v0 := by
          injection he with h1 h2
          exact ⟨h1, h2⟩
        refine ⟨w, hv, ?_⟩
        have hnot : ∀ u, (k, u) ∉ t := by
          intro u hu
          exact hnd.1 (List.mem_map_of_mem Prod.fst hu)
        rw [validatePropsGo_preserves cls types vals t (dictSet acc k w) acc2 k h hnot]
        exact dictGet_dictSet_self acc k w
      · exact ih (dictSet acc k0 w) h hnd.2 k v hmt

theorem validatePropsGo_map_fst (cls : String) (types : List (String × PyType))
    (vals : List (String × Validator)) (l acc acc2 : List (String × PyVal))
    (h : validatePropsGo cls types vals acc l = .ok acc2)
    (hhas : ∀ p ∈ l, dictHas acc p.1 = true) :
    acc2.map Prod.fst = acc.map Prod.fst := by
  induction l generalizing acc with
  | nil =>
    simp only [validatePropsGo] at h
    injection h with h2
    rw [h2]
  | cons p t ih =>
    obtain ⟨k0, v0⟩ := p
    simp only [validatePropsGo] at h
    cases hv : validateOne cls types vals k0 v0 with
    | error e => rw [hv] at h; exact absurd h (by simp)
    | ok w =>
      rw [hv] at h
      have hfst : (dictSet acc k0 w).map Prod.fst = acc.map Prod.fst :=
        dictSet_map_fst_of_has acc k0 w (hhas (k0, v0) (List.mem_cons_self _ _))
      have hhas2 : ∀ p ∈ t, dictHas (dictSet acc k0 w) p.1 = true := by
        intro p hp
        rw [dictHas_iff, hfst, ← dictHas_iff]
        exact hhas p (List.mem_cons_of_mem _ hp)
      rw [ih (dictSet acc k0 w) h hhas2, hfst]

theorem validatePropsGo_fixpoint (cls : String) (types : List (String × PyType))
    (vals : List (String × Validator)) (l acc : List (String × PyVal))
    (hnd : (acc.map Prod.fst).Nodup)
    (hfix : ∀ p ∈ l, p ∈ acc ∧ validateOne cls types vals p.1 p.2 = .ok p.2) :
    validatePropsGo cls types vals acc l = .ok acc := by
  induction l with
  | nil => rfl
  | cons p t ih =>
    obtain ⟨k0, v0⟩ := p
    obtain ⟨hmem, hok⟩ := hfix (k0, v0) (List.mem_cons_self _ _)
    simp only [validatePropsGo, hok]
    rw [dictSet_mem_self acc k0 v0 hmem hnd]
    exact ih (fun p hp => hfix p (List.mem_cons_of_mem _ hp))

theorem validateOne_idem (cls : String) (types : List (String × PyType))
    (vals : List (String × Validator)) (k : String) (v w : PyVal) (hWF : v.WF)
    (h : validateOne cls types vals k v = .ok w) :
    validateOne cls types vals k w = .ok w := by
  simp only [validateOne] at h ⊢
  by_cases hk : dictHas types k = true
  · rw [if_pos hk] at h ⊢
    cases hv : ((dictGet vals k).getD (.generic ((dictGet types k).getD .strT))).validate v with
    | ok u =>
      rw [hv] at h
      have h2 : u = w := by
        have h3 : (Except.ok u : Except ValErr PyVal) = .ok w := h
        injection h3
      subst h2
      rw [validator_idem _ _ _ hWF hv]
    | error e =>
      rw [hv] at h
      cases e <;> simp at h
  · rw [if_neg hk] at h
    exact absurd h (by simp)

theorem mem_of_mem_map_fst {α : Type} (l : List (String × α)) (k : String)
    (h : k ∈ l.map Prod.fst) : ∃ v, (k, v) ∈ l := by
  rcases List.mem_map.mp h with ⟨p, hp, hfst⟩
  exact ⟨p.2, by rw [show (k, p.2) = p from by rw [← hfst]]; exact hp⟩

theorem validateProps_error_name (cls : String) (types : List (String × PyType))
    (vals : List (String × Validator)) (props : List (String × PyVal)) (n : String)
    (v2 : PyVal) (exp : String)
    (h : validateProps cls types vals props = .error (.propertyValidation n v2 exp)) :
    n ∈ props.map Prod.fst :=
  validatePropsGo_error_name cls types vals props props n v2 exp h

theorem validateProps_map_fst (cls : String) (types : List (String × PyType))
    (vals : List (String × Validator)) (props props2 : List (String × PyVal))
    (h : validateProps cls types vals props = .ok props2) :
    props2.map Prod.fst = props.map Prod.fst := by
  refine validatePropsGo_map_fst cls types vals props props props2 h ?_
  intro p hp
  rw [dictHas_iff]
  exact List.mem_map_of_mem Prod.fst hp

/-- Claim C8 helper: a successful validate_properties pass is a fixpoint -
running it again on its own output succeeds and changes nothing. -/
theorem validateProps_idem (cls : String) (types : List (String × PyType))
    (vals : List (String × Validator)) (props props2 : List (String × PyVal))
    (hnd : (props.map Prod.fst).Nodup)
    (hWF : ∀ p ∈ props, PyVal.WF p.2)
    (h : validateProps cls types vals props = .ok props2) :
    validateProps cls types vals props2 = .ok props2 := by
  have hkeys := validateProps_map_fst cls types vals props props2 h
  have hnd2 : (props2.map Prod.fst).Nodup := by rw [hkeys]; exact hnd
  refine validatePropsGo_fixpoint cls types vals props2 props2 hnd2 ?_
  intro p hp
  refine ⟨hp, ?_⟩
  obtain ⟨k, w⟩ := p
  have hk : k ∈ props.map Prod.fst := by
    rw [← hkeys]
    exact List.mem_map_of_mem Prod.fst hp
  obtain ⟨v, hv⟩ := mem_of_mem_map_fst props k hk
  obtain ⟨w2, hone, hget⟩ := validatePropsGo_sets cls types vals props props props2 h hnd k v hv
  have hww : w = w2 := by
    have hx := dictGet_of_mem_nodup props2 k w hp hnd2
    rw [hx, Option.some.injEq] at hget
    exact hget
  subst hww
  exact validateOne_idem cls types vals k v w (hWF (k, v) hv) hone

theorem mkEntity_ok_fields (cls : EntityClass) (freshId lbl : String)
    (props : List (String × PyVal)) (ent : EntityRec)
    (h : mkEntity cls freshId lbl props = .ok ent) :
    ∃ props2,
      validateProps cls.name
        (dictUpdate (cls.initProperties ⟨[], [], props⟩).propertyTypes standardTypes)
        (dictUpdate (cls.initProperties ⟨[], [], props⟩).propertyValidators standardValidators)
        (cls.initProperties ⟨[], [], props⟩).properties = .ok props2 ∧
      ent = { label := cls.updateLabel props2
              properties := props2
              propertyTypes :=
                dictUpdate (cls.initProperties ⟨[], [], props⟩).propertyTypes standardTypes
              propertyValidators :=
                dictUpdate (cls.initProperties ⟨[], [], props⟩).propertyValidators
                  standardValidators
              data := { id := freshId, type := cls.name, label := cls.updateLabel props2,
                        properties := props2, color := some cls.color } } := by
  simp only [mkEntity] at h
  cases hv : validateProps cls.name
      (dictUpdate (cls.initProperties ⟨[], [], props⟩).propertyTypes standardTypes)
      (dictUpdate (cls.initProperties ⟨[], [], props⟩).propertyValidators standardValidators)
      (cls.initProperties ⟨[], [], props⟩).properties with
  | error e =>
    rw [hv] at h
    exact absurd h (by simp)
  | ok props2 =>
    rw [hv] at h
    refine ⟨props2, rfl, ?_⟩
    injection h with h2
    exact h2.symm

/- Graph store lemmas. -/

theorem heapId_append (heap : List NodeObj) (x : NodeObj) (r : Nat) (h : r < heap.length) :
    heapId (heap ++ [x]) r = heapId heap r := by
  unfold heapId
  rw [List.get?_append h]

theorem heapId_concat (heap : List NodeObj) (x : NodeObj) :
    heapId (heap ++ [x]) heap.length = x.entityId := by
  unfold heapId
  rw [List.get?_concat_length]

theorem list_set_same {α : Type} (l : List α) (r : Nat) (v : α) (h : l.get? r = some v) :
    l.set r v = l := by
  induction l generalizing r with
  | nil => simp at h
  | cons a t ih =>
    cases r with
    | zero =>
      simp only [List.get?] at h
      injection h with h2
      rw [h2]
      rfl
    | succ r =>
      simp only [List.get?] at h
      simp [List.set, ih r h]

theorem coherent_graphEmpty : GraphCoherent graphEmpty := by decide

theorem coherent_addNode (g : GraphState) (i : String) (h : GraphCoherent g) :
    GraphCoherent (addNode g i) := by
  unfold addNode
  by_cases hx : dictHas g.nodes i = true
  · rw [if_pos hx]
    exact h
  · rw [if_neg hx]
    obtain ⟨h1, h2, h3, h4⟩ := h
    have hni : i ∉ g.nodes.map Prod.fst := by
      rw [← dictHas_iff]
      simp [hx]
    refine ⟨?_, ?_, ?_, h4⟩
    · intro p hp
      rcases List.mem_append.mp hp with hp | hp
      · obtain ⟨ha, hb⟩ := h1 p hp
        refine ⟨by simp; omega, ?_⟩
        rw [heapId_append _ _ _ ha]
        exact hb
      · obtain rfl : p = (i, g.heap.length) := by simpa using hp
        refine ⟨by simp, ?_⟩
        exact heapId_concat g.heap ⟨i⟩
    · rw [List.map_append]
      simp only [List.map_cons, List.map_nil]
      rw [List.nodup_append]
      exact ⟨h2, List.nodup_singleton i, by simpa using hni⟩
    · intro e he
      obtain ⟨ha, hb, hc, hd, hee⟩ := h3 e he
      rw [List.map_append]
      refine ⟨by simp; omega, by simp; omega, ?_, ?_, ?_⟩
      · rw [heapId_append _ _ _ ha]
        exact List.mem_append_left _ hc
      · rw [heapId_append _ _ _ hb]
        exact List.mem_append_left _ hd
      · rw [heapId_append _ _ _ ha, heapId_append _ _ _ hb]
        exact hee

theorem coherent_addEdge (g : GraphState) (s t : String) (h : GraphCoherent g) :
    GraphCoherent (addEdgeR g s t).1 := by
  simp only [addEdgeR]
  by_cases hx : (dictHas g.nodes s && dictHas g.nodes t) = true
  · rw [if_pos hx]
    obtain ⟨hs, ht⟩ := Bool.and_eq_true_iff.mp hx
    cases he : dictGet g.edges (s ++ "->" ++ t) with
    | some e => exact h
    | none =>
      show GraphCoherent ⟨g.heap, g.nodes,
        g.edges ++ [(s ++ "->" ++ t, ((dictGet g.nodes s).getD 0, (dictGet g.nodes t).getD 0))]⟩
      obtain ⟨h1, h2, h3, h4⟩ := h
      obtain ⟨rs, hrs⟩ := mem_of_mem_map_fst g.nodes s ((dictHas_iff _ _).mp hs)
      obtain ⟨rt, hrt⟩ := mem_of_mem_map_fst g.nodes t ((dictHas_iff _ _).mp ht)
      have hgs : dictGet g.nodes s = some rs := dictGet_of_mem_nodup _ _ _ hrs h2
      have hgt : dictGet g.nodes t = some rt := dictGet_of_mem_nodup _ _ _ hrt h2
      obtain ⟨hrs1, hrs2⟩ := h1 (s, rs) hrs
      obtain ⟨hrt1, hrt2⟩ := h1 (t, rt) hrt
      refine ⟨h1, h2, ?_, ?_⟩
      · intro e he2
        rcases List.mem_append.mp he2 with he2 | he2
        · exact h3 e he2
        · obtain rfl : e = (s ++ "->" ++ t, ((dictGet g.nodes s).getD 0, (dictGet g.nodes t).getD 0)) := by
            simpa using he2
          rw [hgs, hgt]
          simp only [Option.getD_some]
          rw [hrs2, hrt2]
          exact ⟨hrs1, hrt1, List.mem_map_of_mem Prod.fst hrs,
            List.mem_map_of_mem Prod.fst hrt, rfl⟩
      · rw [List.map_append]
        simp only [List.map_cons, List.map_nil]
        rw [List.nodup_append]
        refine ⟨h4, List.nodup_singleton _, ?_⟩
        intro a ha hb
        simp only [List.mem_singleton] at hb
        subst hb
        have : dictGet g.edges (s ++ "->" ++ t) ≠ Option.none := by
          obtain ⟨v, hv⟩ := mem_of_mem_map_fst g.edges _ ha
          rw [dictGet_of_mem_nodup _ _ _ hv h4]
          simp
        exact this he
  · rw [if_neg hx]
    exact h

theorem coherent_updateNode_pres (g : GraphState) (n : String) (h : GraphCoherent g) :
    updateNode g n n = g := by
  unfold updateNode
  cases hg : dictGet g.nodes n with
  | none => rfl
  | some r =>
    obtain ⟨h1, -, -, -⟩ := h
    obtain ⟨ha, hb⟩ := h1 (n, r) (dictGet_mem _ _ _ hg)
    have hr : g.heap.get? r = some ⟨n⟩ := by
      unfold heapId at hb
      cases hq : g.heap.get? r with
      | none =>
        exfalso
        have hlen := List.get?_eq_none.mp hq
        omega
      | some nd =>
        rw [hq] at hb
        have hnd : nd = ⟨n⟩ := by
          cases nd
          simpa using hb
        rw [hnd]
    simp [list_set_same g.heap r ⟨n⟩ hr]

theorem mem_map_fst_filter_ne {α : Type} (l : List (String × α)) (k n : String) :
    (k ∈ (l.filter fun p => !(p.1 == n)).map Prod.fst) ↔ k ∈ l.map Prod.fst ∧ k ≠ n := by
  constructor
  · intro h
    rcases List.mem_map.mp h with ⟨p, hp, hfst⟩
    have hmem := List.mem_of_mem_filter hp
    have hcond := List.of_mem_filter hp
    subst hfst
    refine ⟨List.mem_map_of_mem Prod.fst hmem, ?_⟩
    simpa using hcond
  · rintro ⟨h1, h2⟩
    rcases List.mem_map.mp h1 with ⟨p, hp, hfst⟩
    subst hfst
    refine List.mem_map_of_mem Prod.fst (List.mem_filter.mpr ⟨hp, ?_⟩)
    simpa using h2

theorem coherent_removeNode (g : GraphState) (n : String) (h : GraphCoherent g) :
    GraphCoherent (removeNode g n) := by
  unfold removeNode
  by_cases hx : dictHas g.nodes n = true
  · rw [if_pos hx]
    obtain ⟨h1, h2, h3, h4⟩ := h
    show GraphCoherent ⟨g.heap,
      g.nodes.filter fun p => !(p.1 == n),
      g.edges.filter fun e => !(heapId g.heap e.2.1 == n || heapId g.heap e.2.2 == n)⟩
    refine ⟨?_, ?_, ?_, ?_⟩
    · intro p hp
      exact h1 p (List.mem_of_mem_filter hp)
    · exact h2.sublist ((List.filter_sublist _).map _)
    · intro e he
      have hmem := List.mem_of_mem_filter he
      have hcond := List.of_mem_filter he
      obtain ⟨ha, hb, hc, hd, hee⟩ := h3 e hmem
      have hcond2 : heapId g.heap e.2.1 ≠ n ∧ heapId g.heap e.2.2 ≠ n := by
        simpa using hcond
      refine ⟨ha, hb, ?_, ?_, hee⟩
      · exact (mem_map_fst_filter_ne g.nodes _ n).mpr ⟨hc, hcond2.1⟩
      · exact (mem_map_fst_filter_ne g.nodes _ n).mpr ⟨hd, hcond2.2⟩
    · exact h4.sublist ((List.filter_sublist _).map _)
  · rw [if_neg hx]
    exact h

theorem coherent_clearGraph (g : GraphState) : GraphCoherent (clearGraph g) := by
  unfold clearGraph GraphCoherent
  simp

theorem coherent_foldl (ops : List GraphOp) (g : GraphState) (hg : GraphCoherent g)
    (hpres : ∀ op ∈ ops, op.idPreserving) : GraphCoherent (ops.foldl applyOp g) := by
  induction ops generalizing g with
  | nil => exact hg
  | cons op t ih =>
    have hop := hpres op (List.mem_cons_self _ _)
    refine ih (applyOp g op) ?_ (fun o ho => hpres o (List.mem_cons_of_mem _ ho))
    cases op with
    | addNodeOp i => exact coherent_addNode g i hg
    | addEdgeOp s t2 => exact coherent_addEdge g s t2 hg
    | updateNodeOp n i =>
      have he : n = i := hop
      subst he
      show GraphCoherent (updateNode g n n)
      rw [coherent_updateNode_pres g n hg]
      exact hg
    | removeNodeOp n => exact coherent_removeNode g n hg
    | clearOp => exact coherent_clearGraph g

theorem graphInv_of_coherent (g : GraphState) (h : GraphCoherent g) : GraphInv g :=
  ⟨fun e he => ⟨(h.2.2.1 e he).2.2.1, (h.2.2.1 e he).2.2.2.1⟩, h.2.2.2⟩

theorem addEdgeR_idem (g : GraphState) (s t : String) :
    addEdgeR (addEdgeR g s t).1 s t = addEdgeR g s t := by
  by_cases hx : (dictHas g.nodes s && dictHas g.nodes t) = true
  · cases he : dictGet g.edges (s ++ "->" ++ t) with
    | some e =>
      have h1 : addEdgeR g s t = (g, some (s ++ "->" ++ t, e)) := by
        simp only [addEdgeR]
        rw [if_pos hx, he]
      rw [h1]
      exact h1
    | none =>
      have h1 : addEdgeR g s t =
          ({ g with edges := g.edges ++ [(s ++ "->" ++ t,
              ((dictGet g.nodes s).getD 0, (dictGet g.nodes t).getD 0))] },
            some (s ++ "->" ++ t,
              ((dictGet g.nodes s).getD 0, (dictGet g.nodes t).getD 0))) := by
        simp only [addEdgeR]
        rw [if_pos hx, he]
      rw [h1]
      have h2 : dictGet (g.edges ++ [(s ++ "->" ++ t,
          ((dictGet g.nodes s).getD 0, (dictGet g.nodes t).getD 0))]) (s ++ "->" ++ t) =
          some ((dictGet g.nodes s).getD 0, (dictGet g.nodes t).getD 0) := by
        rw [dictGet_append_of_none _ _ _ he, dictGet_cons]
        simp
      simp only [addEdgeR]
      rw [if_pos hx, h2]
  · have h1 : addEdgeR g s t = (g, Option.none) := by
      simp only [addEdgeR]
      rw [if_neg hx]
    rw [h1]
    exact h1

theorem removeNode_incident (g : GraphState) (n : String) (h : GraphCoherent g) :
    ∀ e ∈ (removeNode g n).edges,
      heapId g.heap e.2.1 ≠ n ∧ heapId g.heap e.2.2 ≠ n := by
  intro e he
  by_cases hx : dictHas g.nodes n = true
  · simp only [removeNode, if_pos hx] at he
    have hcond := List.of_mem_filter he
    simpa using hcond
  · simp only [removeNode, if_neg hx] at he
    obtain ⟨-, -, h3, -⟩ := h
    obtain ⟨-, -, hc, hd, -⟩ := h3 e he
    constructor
    · intro hn
      rw [hn] at hc
      exact absurd ((dictHas_iff _ _).mpr hc) (by simp [hx])
    · intro hn
      rw [hn] at hd
      exact absurd ((dictHas_iff _ _).mpr hd) (by simp [hx])

/- Merge resolver lemmas: the similarity computation is invariant under the
set iteration order, except for the first-word boost of person entities. -/

theorem contains_perm (l l' : List String) (h : l.Perm l') (w : String) :
    l.contains w = l'.contains w := by
  rw [Bool.eq_iff_iff]
  simp only [List.contains_eq_any_beq, List.any_eq_true]
  exact ⟨fun ⟨x, hx, hpx⟩ => ⟨x, h.mem_iff.mp hx, hpx⟩,
    fun ⟨x, hx, hpx⟩ => ⟨x, h.mem_iff.mpr hx, hpx⟩⟩

theorem any_perm (l l' : List String) (p : String → Bool) (h : l.Perm l') :
    l.any p = l'.any p := by
  rw [Bool.eq_iff_iff]
  simp only [List.any_eq_true]
  exact ⟨fun ⟨x, hx, hpx⟩ => ⟨x, h.mem_iff.mp hx, hpx⟩,
    fun ⟨x, hx, hpx⟩ => ⟨x, h.mem_iff.mpr hx, hpx⟩⟩

theorem interCount_perm (l1 m1 l2 m2 : List String) (h1 : l1.Perm m1) (h2 : l2.Perm m2) :
    interCount l1 l2 = interCount m1 m2 := by
  unfold interCount
  have hp : l1.filter (fun w => l2.contains w) = l1.filter (fun w => m2.contains w) :=
    List.filter_congr (fun w _ => contains_perm l2 m2 h2 w)
  rw [hp]
  exact (h1.filter _).length_eq

theorem isEmpty_perm (l l' : List String) (h : l.Perm l') : l.isEmpty = l'.isEmpty := by
  cases l with
  | nil =>
    have hlen := h.length_eq
    cases l' with
    | nil => rfl
    | cons a t => simp at hlen
  | cons a t =>
    have hlen := h.length_eq
    cases l' with
    | nil => simp at hlen
    | cons b u => rfl

theorem sum_lengths_perm (l l' : List String) (h : l.Perm l') :
    (l.map String.length).sum = (l'.map String.length).sum :=
  (h.map String.length).sum_eq

theorem getSimilarityScore_perm (l1 m1 l2 m2 : List String)
    (h1 : l1.Perm m1) (h2 : l2.Perm m2) :
    getSimilarityScore l1 l2 = getSimilarityScore m1 m2 := by
  unfold getSimilarityScore
  rw [isEmpty_perm l1 m1 h1, isEmpty_perm l2 m2 h2, interCount_perm l1 m1 l2 m2 h1 h2]
  unfold unionCount avgWordLen
  rw [h1.length_eq, h2.length_eq, interCount_perm l1 m1 l2 m2 h1 h2,
    sum_lengths_perm l1 m1 h1, sum_lengths_perm l2 m2 h2]

theorem any_congr_fn {α : Type} (l : List α) (p q : α → Bool)
    (h : ∀ x ∈ l, p x = q x) : l.any p = l.any q := by
  induction l with
  | nil => rfl
  | cons a t ih =>
    simp only [List.any_cons]
    rw [h a (List.mem_cons_self _ _), ih (fun x hx => h x (List.mem_cons_of_mem _ hx))]

theorem sigShare_perm (l1 m1 l2 m2 : List String) (h1 : l1.Perm m1) (h2 : l2.Perm m2) :
    sigShare l1 l2 = sigShare m1 m2 := by
  unfold sigShare
  have hp : (l1.filter (fun w => 4 < w.length)).any
        (fun w => (l2.filter (fun x => 4 < x.length)).contains w) =
      (l1.filter (fun w => 4 < w.length)).any
        (fun w => (m2.filter (fun x => 4 < x.length)).contains w) := by
    apply any_congr_fn
    intro w _
    exact contains_perm _ _ (h2.filter _) w
  rw [hp]
  exact any_perm _ _ _ (h1.filter _)

theorem candidateScore_event_perm (l1 m1 l2 m2 : List String)
    (h1 : l1.Perm m1) (h2 : l2.Perm m2) :
    candidateScore "event" l1 l2 = candidateScore "event" m1 m2 := by
  simp only [candidateScore, getSimilarityScore_perm l1 m1 l2 m2 h1 h2,
    sigShare_perm l1 m1 l2 m2 h1 h2]
  simp

theorem perm_pair {α : Type} [DecidableEq α] {l : List α} {a b : α} (hab : a ≠ b)
    (h : l.Perm [a, b]) : l = [a, b] ∨ l = [b, a] := by
  have hlen := h.length_eq
  match l, hlen with
  | [x, y], _ =>
    have hx : x ∈ [a, b] := h.mem_iff.mp (by simp)
    have hy : y ∈ [a, b] := h.mem_iff.mp (by simp)
    simp only [List.mem_cons, List.mem_singleton, List.not_mem_nil, or_false] at hx hy
    rcases hx with rfl | rfl
    · rcases hy with rfl | rfl
      · exfalso
        have hc := h.count_eq b
        simp [List.count_cons, List.count_nil, hab, Ne.symm hab] at hc
      · exact Or.inl rfl
    · rcases hy with rfl | rfl
      · exact Or.inr rfl
      · exfalso
        have hc := h.count_eq a
        simp [List.count_cons, List.count_nil, hab, Ne.symm hab] at hc

/-- Claim C8: every property validator is idempotent - whenever validate(x)
succeeds with result y on a well-formed value, validate(y) succeeds and
returns y unchanged (floats pass through unrounded) - and consequently a
second validate_properties pass over an already-validated property map
raises nothing and leaves the map unmodified. -/
theorem c8_validation_idempotent :
    (∀ (vd : Validator) (x y : PyVal), x.WF → vd.validate x = .ok y → vd.validate y = .ok y)
    ∧ (∀ (cls : String) (types : List (String × PyType)) (vals : List (String × Validator))
        (props props2 : List (String × PyVal)),
        (props.map Prod.fst).Nodup → (∀ p ∈ props, PyVal.WF p.2) →
        validateProps cls types vals props = .ok props2 →
        validateProps cls types vals props2 = .ok props2) :=
  ⟨fun vd x y hWF h => validator_idem vd x y hWF h,
   fun cls types vals props props2 hnd hWF h =>
     validateProps_idem cls types vals props props2 hnd hWF h⟩

/-- Claim C8 witness: the datetime validator on an already-normalized
string, and a second validate_properties run on a coerced age property. -/
theorem c8_validation_idempotent_witness :
    Validator.datetimeV.validate (.str "2024-01-02 03:04") = .ok (.str "2024-01-02 03:04")
    ∧ validateProps "Person" [("age", PyType.intT)] [] [("age", PyVal.int 42)] =
        .ok [("age", PyVal.int 42)] :=
  ⟨c8_validation_idempotent.1 Validator.datetimeV (PyVal.str "2024-01-02 03:04:05")
      (PyVal.str "2024-01-02 03:04") trivial rfl,
   c8_validation_idempotent.2 "Person" [("age", PyType.intT)] [] [("age", PyVal.str "42")]
      [("age", PyVal.int 42)] (by simp) (by intro p hp; simp at hp; subst hp; trivial) rfl⟩

/-- Claim C2 counterexample: an Event labelled "Party" through its name
property round-trips with identical data, but the label attribute of the
reconstructed entity is "Event", not "Party" - Entity.from_dict constructs
the instance with an empty property map, update_label runs on it, and the
label attribute is never restored from the dictionary. -/
theorem c2_label_counterexample :
    (mkEntity eventClass "id1" "" [("name", PyVal.str "Party")]).toOption.map EntityRec.label
      = some "Party"
    ∧ ((mkEntity eventClass "id1" "" [("name", PyVal.str "Party")]).toOption.bind
        (fun e => (entityFromDict entityRegistry "id2" (entityToDict e)).toOption)).map
        EntityRec.label = some "Event"
    ∧ ("Event" : String) ≠ "Party" :=
  ⟨rfl, rfl, by decide⟩

/-- Claim C2 (amended): for every registered entity class whose construction
with the serialized label and an empty property map succeeds, from_dict
returns an entity whose data record is the input dictionary verbatim - so
id, type, serialized label, properties and color are identical and to_dict
round-trips exactly - while the in-memory label attribute keeps the value
update_label derived during construction from the near-empty property map
(it is not restored from the dictionary). -/
theorem c2_roundtrip_amended (registry : List (String × EntityClass)) (cls : EntityClass)
    (freshId : String) (d : EntityDict) (ent0 : EntityRec)
    (hcls : dictGet registry d.type = some cls)
    (hmk : mkEntity cls freshId d.label [] = .ok ent0) :
    entityFromDict registry freshId d =
      .ok { ent0 with properties := d.properties, data := d } := by
  simp only [entityFromDict, hcls, hmk]

/-- Claim C2 witness: the serialized Party event deserializes with its data
intact and label attribute "Event". -/
theorem c2_roundtrip_witness :
    (entityFromDict entityRegistry "id2"
        ⟨"id1", "Event", "Party",
          [("name", PyVal.str "Party"), ("add_to_timeline", PyVal.bool false)],
          some "#F22416"⟩).toOption.map (fun rt => (rt.data, rt.label))
      = some (⟨"id1", "Event", "Party",
          [("name", PyVal.str "Party"), ("add_to_timeline", PyVal.bool false)],
          some "#F22416"⟩, "Event") := by
  rw [c2_roundtrip_amended entityRegistry eventClass "id2"
    ⟨"id1", "Event", "Party",
      [("name", PyVal.str "Party"), ("add_to_timeline", PyVal.bool false)],
      some "#F22416"⟩ _ rfl rfl]
  rfl

/-- Claim C6 counterexample: a subclass registering a custom notes validator
(min_length 5) in init_properties ends up with the plain standard
StringValidator after construction - the dict.update of the three standard
validators in __post_init__ overwrites it. -/
theorem c6_standard_validator_counterexample :
    ((mkEntity customNotesClass "i1" "" []).toOption.map
      (fun e => dictGet e.propertyValidators "notes"))
      = some (some (.stringV 0 Option.none Option.none))
    ∧ notesCustomValidator ≠ .stringV 0 Option.none Option.none :=
  ⟨rfl, by simp [notesCustomValidator]⟩

/-- Claim C6 (amended): for every entity class and every successful
construction, the validators registered for notes, source and image after
__post_init__ are the freshly constructed standard StringValidators,
regardless of what the subclass registered for those keys - the standard
merge uses dict.update, which overwrites (only setup_properties preserves
pre-registered validators, and it is not used for the standard three). -/
theorem c6_standard_merge_amended (cls : EntityClass) (freshId lbl : String)
    (props : List (String × PyVal)) (ent : EntityRec)
    (h : mkEntity cls freshId lbl props = .ok ent) :
    dictGet ent.propertyValidators "notes" = some (.stringV 0 Option.none Option.none)
    ∧ dictGet ent.propertyValidators "source" = some (.stringV 0 Option.none Option.none)
    ∧ dictGet ent.propertyValidators "image" = some (.stringV 0 Option.none Option.none) := by
  obtain ⟨props2, -, rfl⟩ := mkEntity_ok_fields cls freshId lbl props ent h
  show dictGet (dictUpdate _ standardValidators) "notes" = _
    ∧ dictGet (dictUpdate _ standardValidators) "source" = _
    ∧ dictGet (dictUpdate _ standardValidators) "image" = _
  simp only [dictUpdate, standardValidators, List.foldl]
  refine ⟨?_, ?_, ?_⟩
  · rw [dictGet_dictSet_ne _ _ _ _ (by decide), dictGet_dictSet_ne _ _ _ _ (by decide),
      dictGet_dictSet_self]
  · rw [dictGet_dictSet_ne _ _ _ _ (by decide), dictGet_dictSet_self]
  · rw [dictGet_dictSet_self]

/-- Claim C6 witness: the custom-notes subclass instance. -/
theorem c6_standard_merge_witness :
    ∃ ent, mkEntity customNotesClass "i1" "" [] = .ok ent ∧
      dictGet ent.propertyValidators "notes" = some (.stringV 0 Option.none Option.none) :=
  ⟨_, rfl, (c6_standard_merge_amended customNotesClass "i1" "" [] _ rfl).1⟩

theorem dateTimeValidateStr_not_pv (s : String) :
    isPropertyValidationError (dateTimeValidateStr s) = false := by
  cases hp : parseYMDHM s with
  | some d => simp [dateTimeValidateStr, hp, isPropertyValidationError]
  | none =>
    cases hp2 : parseYMDHMS s with
    | some d => simp [dateTimeValidateStr, hp, hp2, isPropertyValidationError]
    | none => simp [dateTimeValidateStr, hp, hp2, isPropertyValidationError]

/-- Claim C4 counterexample: an Event constructed with start_date "garbage"
raises a plain ValueError from DateTimeValidator - not a
PropertyValidationError carrying property_name "start_date" - because the
except clause in validate_properties catches only PropertyValidationError
and the DateTimeValidator raises ValueError directly. -/
theorem c4_datetime_valueerror_counterexample :
    mkEntity eventClass "i1" "" [("start_date", PyVal.str "garbage")] =
      .error (.valueErr "Invalid datetime format. Expected YYYY-MM-DD HH:mm, got garbage")
    ∧ isPropertyValidationError
        (mkEntity eventClass "i1" "" [("start_date", PyVal.str "garbage")]) = false :=
  ⟨rfl, rfl⟩

/-- Claim C4 (amended): whenever validate_properties raises a
PropertyValidationError, its property_name is one of the real keys of the
property map (the placeholder "unknown" stamped by the validator is
replaced); but failures of the datetime validator are plain ValueErrors
that escape validate_properties unwrapped and carry no property name. -/
theorem c4_property_name_amended :
    (∀ (cls : String) (types : List (String × PyType)) (vals : List (String × Validator))
        (props : List (String × PyVal)) (n : String) (v2 : PyVal) (exp : String),
        validateProps cls types vals props = .error (.propertyValidation n v2 exp) →
        n ∈ props.map Prod.fst)
    ∧ (∀ v : PyVal, isPropertyValidationError (dateTimeValidate v) = false) := by
  constructor
  · exact fun cls types vals props n v2 exp h =>
      validateProps_error_name cls types vals props n v2 exp h
  · intro v
    cases v with
    | datetime d => simp [dateTimeValidate, isPropertyValidationError]
    | str s => exact dateTimeValidateStr_not_pv _
    | int n => exact dateTimeValidateStr_not_pv _
    | float q => exact dateTimeValidateStr_not_pv _
    | bool b => exact dateTimeValidateStr_not_pv _
    | pynone =>
      have h2 : isPropertyValidationError (dateTimeValidateStr (strOf PyVal.pynone)) = false :=
        dateTimeValidateStr_not_pv _
      exact h2

/-- Claim C4 witness: a failing age property yields a
PropertyValidationError stamped with the real key "age". -/
theorem c4_property_name_witness :
    validateProps "Person" [("age", PyType.intT)] [("age", Validator.integerV (some 0) (some 150))]
      [("age", PyVal.str "abc")] = .error (.propertyValidation "age" (PyVal.str "abc") "int")
    ∧ "age" ∈ ([("age", PyVal.str "abc")].map Prod.fst) :=
  ⟨rfl, c4_property_name_amended.1 "Person" [("age", PyType.intT)]
    [("age", Validator.integerV (some 0) (some 150))] [("age", PyVal.str "abc")]
    "age" (PyVal.str "abc") "int" rfl⟩

/-- Claim C7 counterexample: an Event constructed without add_to_timeline
gets the value False, not True. -/
theorem c7_default_counterexample :
    ((mkEntity eventClass "i1" "" []).toOption.map
      (fun e => dictGet e.properties "add_to_timeline")) = some (some (PyVal.bool false))
    ∧ PyVal.bool false ≠ PyVal.bool true :=
  ⟨rfl, by simp⟩

theorem dictSet_append_of_not_has {α : Type} (l : List (String × α)) (k : String) (v : α)
    (h : dictHas l k = false) : dictSet l k v = l ++ [(k, v)] := by
  induction l with
  | nil => rfl
  | cons p t ih =>
    rw [dictHas_cons] at h
    rcases Bool.or_eq_false_iff.mp h with ⟨h1, h2⟩
    simp [dictSet, h1, ih h2]

theorem eventInit_properties_absent (st : EntityInitState)
    (h : dictHas st.properties "add_to_timeline" = false) :
    (eventInitProperties st).properties
      = st.properties ++ [("add_to_timeline", PyVal.bool false)] := by
  unfold eventInitProperties setupProperties
  rw [if_neg (by simpa using h)]
  exact dictSet_append_of_not_has _ _ _ h

/-- Claim C7 (amended): an Event constructed without an explicit
add_to_timeline property has add_to_timeline defaulted to False (not True)
in its properties map. -/
theorem c7_add_to_timeline_amended (freshId lbl : String) (props : List (String × PyVal))
    (ent : EntityRec) (hnd : (props.map Prod.fst).Nodup)
    (habs : dictHas props "add_to_timeline" = false)
    (h : mkEntity eventClass freshId lbl props = .ok ent) :
    dictGet ent.properties "add_to_timeline" = some (PyVal.bool false) := by
  obtain ⟨props2, hv, rfl⟩ := mkEntity_ok_fields eventClass freshId lbl props ent h
  show dictGet props2 "add_to_timeline" = some (PyVal.bool false)
  have hinit : (eventClass.initProperties ⟨[], [], props⟩).properties
      = props ++ [("add_to_timeline", PyVal.bool false)] :=
    eventInit_properties_absent ⟨[], [], props⟩ habs
  rw [hinit] at hv
  have hnd2 : ((props ++ [("add_to_timeline", PyVal.bool false)]).map Prod.fst).Nodup := by
    rw [List.map_append]
    rw [List.nodup_append]
    refine ⟨hnd, by simp, ?_⟩
    intro a ha hb
    simp only [List.map_cons, List.map_nil, List.mem_singleton] at hb
    subst hb
    exact absurd ((dictHas_iff _ _).mpr ha) (by simp [habs])
  have hmem : ("add_to_timeline", PyVal.bool false) ∈
      props ++ [("add_to_timeline", PyVal.bool false)] := by
    exact List.mem_append_right _ (List.mem_singleton.mpr rfl)
  obtain ⟨w, hone, hget⟩ := validatePropsGo_sets _ _ _ _ _ _ hv hnd2
    "add_to_timeline" (PyVal.bool false) hmem
  have hw : w = PyVal.bool false := by
    have hcomp : validateOne eventClass.name
        (dictUpdate (eventClass.initProperties ⟨[], [], props⟩).propertyTypes standardTypes)
        (dictUpdate (eventClass.initProperties ⟨[], [], props⟩).propertyValidators
          standardValidators)
        "add_to_timeline" (PyVal.bool false) = .ok (PyVal.bool false) := by
      have htypes : (eventClass.initProperties ⟨[], [], props⟩).propertyTypes
          = dictUpdate (dictUpdate [] [("name", PyType.strT), ("description", PyType.strT),
              ("start_date", PyType.strT), ("end_date", PyType.strT),
              ("add_to_timeline", PyType.boolT)]) [] := by
        show (eventInitProperties ⟨[], [], props⟩).propertyTypes = _
        simp only [eventInitProperties, setupProperties]
        split_ifs <;> rfl
      have hvals : (eventClass.initProperties ⟨[], [], props⟩).propertyValidators
          = dictUpdate (dictUpdate (dictUpdate []
              ([("name", PyType.strT), ("description", PyType.strT),
                ("start_date", PyType.strT), ("end_date", PyType.strT),
                ("add_to_timeline", PyType.boolT)].map
                  (fun p => (p.1, createValidator p.2))))
              [("start_date", Validator.datetimeV), ("end_date", Validator.datetimeV)]) [] := by
        show (eventInitProperties ⟨[], [], props⟩).propertyValidators = _
        simp only [eventInitProperties, setupProperties]
        split_ifs <;> rfl
      rw [htypes, hvals]
      rfl
    rw [hcomp] at hone
    injection hone with h4
    exact h4.symm
  rw [hw] at hget
  exact hget

/-- Claim C7 witness: an Event built with an empty property map. -/
theorem c7_add_to_timeline_witness :
    ∃ ent, mkEntity eventClass "i1" "" [] = .ok ent ∧
      dictGet ent.properties "add_to_timeline" = some (PyVal.bool false) :=
  ⟨_, rfl, c7_add_to_timeline_amended "i1" "" [] _ (by simp) rfl rfl⟩

/-- Claim C5 counterexample: update_node replaces the entity of the
referenced NodeVisual in place without touching the nodes key or the edges,
so updating node "a" with an entity whose id is "c" leaves an edge whose
source entity id "c" is not a key of nodes - the invariant fails as stated
for unrestricted operation sequences. -/
theorem c5_update_node_counterexample :
    ¬ GraphInv (runOps [.addNodeOp "a", .addNodeOp "b", .addEdgeOp "a" "b",
      .updateNodeOp "a" "c"]) := by decide

/-- Claim C5 (amended): under every operation sequence in which each
update_node call keeps the id of the node it updates (as every caller in
the repository does), the store invariant holds: every edge endpoint entity
id is a current node key and edge ids - hence ordered (source, target)
pairs - are unique; moreover re-adding an existing edge returns the
existing edge and state unchanged, remove_node removes every incident edge
(on any coherent state), and clear empties both maps. -/
theorem c5_graph_invariants_amended :
    (∀ ops : List GraphOp, (∀ op ∈ ops, op.idPreserving) → GraphInv (runOps ops))
    ∧ (∀ (g : GraphState) (s t : String), addEdgeR (addEdgeR g s t).1 s t = addEdgeR g s t)
    ∧ (∀ (g : GraphState) (n : String), GraphCoherent g →
        ∀ e ∈ (removeNode g n).edges,
          heapId g.heap e.2.1 ≠ n ∧ heapId g.heap e.2.2 ≠ n)
    ∧ (∀ g : GraphState, (clearGraph g).nodes = [] ∧ (clearGraph g).edges = []) := by
  refine ⟨?_, addEdgeR_idem, removeNode_incident, fun g => ⟨rfl, rfl⟩⟩
  intro ops hpres
  exact graphInv_of_coherent _ (coherent_foldl ops graphEmpty coherent_graphEmpty hpres)

/-- Claim C5 witness: a full concrete operation sequence with an
id-preserving update. -/
theorem c5_graph_invariants_witness :
    GraphInv (runOps [.addNodeOp "a", .addNodeOp "b", .addEdgeOp "a" "b",
      .updateNodeOp "a" "a", .removeNodeOp "a", .clearOp]) ∧
    (∀ e ∈ (removeNode (runOps [.addNodeOp "a", .addNodeOp "b", .addEdgeOp "a" "b"]) "a").edges,
      heapId (runOps [.addNodeOp "a", .addNodeOp "b", .addEdgeOp "a" "b"]).heap e.2.1 ≠ "a" ∧
      heapId (runOps [.addNodeOp "a", .addNodeOp "b", .addEdgeOp "a" "b"]).heap e.2.2 ≠ "a") :=
  ⟨c5_graph_invariants_amended.1 _ (by decide),
   c5_graph_invariants_amended.2.2.1 _ "a" (by decide)⟩

theorem findMatching_single (ord : List String → List String)
    (entityType label nodeKey nodeVal et nodeType nodeLabel : String)
    (het : toLowerStr entityType = et)
    (hsplit : splitFirstColon (toLowerStr nodeKey) = some (nodeType, nodeLabel))
    (hexact : dictGet [(nodeKey, nodeVal)] (et ++ ":" ++ toLowerStr label) = Option.none)
    (htype : (nodeType == et) = true) :
    findMatchingEntity ord entityType label [(nodeKey, nodeVal)] =
      (if (0 : ℚ) < candidateScore et (ord (wordSet label)) (ord (wordSet nodeLabel))
          ∧ (if et == "event" then (1 : ℚ)/2 else 7/10)
            ≤ candidateScore et (ord (wordSet label)) (ord (wordSet nodeLabel))
        then some nodeVal else Option.none) := by
  simp only [findMatchingEntity, het, hexact, List.foldl, hsplit, htype, if_true]
  rw [apply_ite Prod.fst]

theorem gss_person : getSimilarityScore ["john", "doe"] ["jane", "doe"] = 8/15 := by
  have hi : interCount ["john", "doe"] ["jane", "doe"] = 1 := rfl
  have hu : unionCount ["john", "doe"] ["jane", "doe"] = 3 := rfl
  have hs1 : (((["john", "doe"] : List String)).map String.length).sum = 7 := rfl
  have hs2 : (((["jane", "doe"] : List String)).map String.length).sum = 7 := rfl
  simp only [getSimilarityScore, avgWordLen, hi, hu, hs1, hs2, List.isEmpty_cons,
    List.length_cons, List.length_nil]
  norm_num [min_self, max_self]

theorem gss_event :
    getSimilarityScore ["bank", "robbery", "on", "main", "street"]
      ["robbery", "at", "main", "street", "bank"] = 59/75 := by
  have hi : interCount ["bank", "robbery", "on", "main", "street"]
      ["robbery", "at", "main", "street", "bank"] = 4 := rfl
  have hu : unionCount ["bank", "robbery", "on", "main", "street"]
      ["robbery", "at", "main", "street", "bank"] = 6 := rfl
  have hs1 : (((["bank", "robbery", "on", "main", "street"] : List String)).map
      String.length).sum = 23 := rfl
  have hs2 : (((["robbery", "at", "main", "street", "bank"] : List String)).map
      String.length).sum = 23 := rfl
  simp only [getSimilarityScore, avgWordLen, hi, hu, hs1, hs2, List.isEmpty_cons,
    List.length_cons, List.length_nil]
  norm_num [min_self, max_self]

theorem cs_event_concrete :
    candidateScore "event" ["bank", "robbery", "on", "main", "street"]
      ["robbery", "at", "main", "street", "bank"] = 59/50 := by
  have hsig : sigShare ["bank", "robbery", "on", "main", "street"]
      ["robbery", "at", "main", "street", "bank"] = true := rfl
  simp only [candidateScore, gss_event, hsig]
  norm_num

theorem cs_person_eval (l1 l2 : List String)
    (h1 : l1 = ["john", "doe"] ∨ l1 = ["doe", "john"])
    (h2 : l2 = ["jane", "doe"] ∨ l2 = ["doe", "jane"]) :
    candidateScore "person" l1 l2 =
      (if l1.head? == l2.head? then (4 : ℚ)/5 else 8/15) := by
  have hg : getSimilarityScore l1 l2 = 8/15 := by
    rcases h1 with rfl | rfl <;> rcases h2 with rfl | rfl <;>
      exact (getSimilarityScore_perm _ ["john", "doe"] _ ["jane", "doe"]
        (by decide) (by decide)).trans gss_person
  rcases h1 with rfl | rfl <;> rcases h2 with rfl | rfl <;>
    simp only [candidateScore, hg] <;> norm_num <;>
    exact fun h => absurd h (by decide)



theorem doeFirst_perm (l : List String) : (doeFirst l).Perm l :=
  List.filter_append_perm (fun w => w == "doe") l

/-- Claim C3, counterexample to the person half as stated: doeFirst is a
legitimate set iteration order (it enumerates every set as a permutation of
its elements, surname first), and under it the new Person "John Doe" DOES
merge into the existing Person node "Jane Doe": both word lists start with
"doe", the first-word boost lifts the base score 8/15 to 4/5 ≥ 7/10. -/
theorem c3_person_merge_counterexample :
    (∀ l, (doeFirst l).Perm l)
    ∧ findMatchingEntity doeFirst "Person" "John Doe" [("person:jane doe", "N2")]
        = some "N2" := by
  constructor
  · exact fun l => List.filter_append_perm (fun w => w == "doe") l
  · rw [findMatching_single doeFirst "Person" "John Doe" "person:jane doe" "N2"
      "person" "person" "jane doe" rfl rfl rfl rfl]
    have hd1 : doeFirst (wordSet "John Doe") = ["doe", "john"] := rfl
    have hd2 : doeFirst (wordSet "jane doe") = ["doe", "jane"] := rfl
    rw [hd1, hd2, cs_person_eval _ _ (Or.inr rfl) (Or.inr rfl)]
    norm_num
    rw [if_neg (show ¬(("person" : String) = "event") from by decide)]
    intro h
    exact absurd h (by norm_num)

/-- Claim C3 (corrected): with the composite score 0.4·Jaccard + 0.2·average
word length ratio + 0.4·overlap coefficient, the 1.5 boost and the per-type
thresholds (0.5 for event, 0.7 otherwise), the new Event "Bank robbery on
Main Street" merges into the existing Event node "Robbery at Main Street
Bank" under EVERY set iteration order (score 59/75, boosted to 59/50 ≥ 1/2
by the shared significant words); but whether the new Person "John Doe"
merges into the Person node "Jane Doe" depends on the set iteration order:
the base score is 8/15 < 7/10, and the pair merges exactly when both
iteration orders put "doe" first, where the first-word boost gives
4/5 ≥ 7/10. -/
theorem c3_merge_amended (ord : List String → List String)
    (hord : ∀ l, (ord l).Perm l) :
    findMatchingEntity ord "Event" "Bank robbery on Main Street"
        [("event:robbery at main street bank", "N1")] = some "N1"
    ∧ findMatchingEntity ord "Person" "John Doe" [("person:jane doe", "N2")] =
        (if (ord (wordSet "John Doe")).head? == (ord (wordSet "Jane Doe")).head?
          then some "N2" else Option.none) := by
  constructor
  · rw [findMatching_single ord "Event" "Bank robbery on Main Street"
      "event:robbery at main street bank" "N1" "event" "event"
      "robbery at main street bank" rfl rfl rfl rfl]
    have hw1 : wordSet "Bank robbery on Main Street"
        = ["bank", "robbery", "on", "main", "street"] := rfl
    have hw2 : wordSet "robbery at main street bank"
        = ["robbery", "at", "main", "street", "bank"] := rfl
    rw [hw1, hw2]
    have hcs : candidateScore "event" (ord ["bank", "robbery", "on", "main", "street"])
        (ord ["robbery", "at", "main", "street", "bank"]) = 59/50 :=
      (candidateScore_event_perm _ ["bank", "robbery", "on", "main", "street"]
        _ ["robbery", "at", "main", "street", "bank"]
        (hord ["bank", "robbery", "on", "main", "street"])
        (hord ["robbery", "at", "main", "street", "bank"])).trans cs_event_concrete
    rw [hcs]
    norm_num
  · rw [findMatching_single ord "Person" "John Doe" "person:jane doe" "N2"
      "person" "person" "jane doe" rfl rfl rfl rfl]
    have hw3 : wordSet "John Doe" = ["john", "doe"] := rfl
    have hw4 : wordSet "jane doe" = ["jane", "doe"] := rfl
    have hw5 : wordSet "Jane Doe" = ["jane", "doe"] := rfl
    rw [hw3, hw4, hw5]
    have h1 := perm_pair (show ("john" : String) ≠ "doe" by decide) (hord ["john", "doe"])
    have h2 := perm_pair (show ("jane" : String) ≠ "doe" by decide) (hord ["jane", "doe"])
    rw [cs_person_eval (ord ["john", "doe"]) (ord ["jane", "doe"]) h1 h2]
    cases hb : (ord ["john", "doe"]).head? == (ord ["jane", "doe"]).head? <;> norm_num <;>
      rw [if_neg (show ¬(("person" : String) = "event") from by decide)] <;>
      exact fun h => absurd h (by norm_num)

/-- Witness for C3 at the identity set iteration order: the event pair
merges and the person pair does not (the heads are "john" and "jane"). -/
theorem c3_merge_witness :
    findMatchingEntity id "Event" "Bank robbery on Main Street"
        [("event:robbery at main street bank", "N1")] = some "N1"
    ∧ findMatchingEntity id "Person" "John Doe" [("person:jane doe", "N2")]
        = Option.none := by
  have h := c3_merge_amended id (fun l => List.Perm.refl l)
  exact ⟨h.1, h.2.trans rfl⟩
